import Mathlib

/-!
# HuddleUp: the Mode-7 plane projector and the frame pacer of `src/main.c`

A shallow embedding of `RenderPlane`, `CreatePlane`, `InitGameLoop`, `Tick`,
`Render` and the loop of `Run`, followed by the properties established for them.

Modelling conventions.

* `float` and `double` values are elements of an arbitrary linearly ordered
  field `F` with a floor function (no NaN, no infinities).  Taking `F = ℚ`
  makes every definition executable; taking `F = ℝ` with `Real.cos`,
  `Real.sin` gives the exact-real reading of the projector.
* The projector (`RenderPlane`) and `Tick` are read in exact arithmetic.  In
  the loop of `Run` every `double` operation is followed by a rounding `rnd`,
  a parameter; `binary64` is the IEEE 754 rounding to the nearest `double`,
  ties to even (overflow to infinity is not modelled, and `double` expressions
  are taken to be evaluated in `double` precision, not in a wider format).
* `cosf` and `sinf` come from the C library; they are parameters.
* `int`, `int32_t`, `clock_t` are `Int` (signed overflow is undefined in C and
  is not modelled); `bool_t`/`dword_t` flags are `Nat`, tested against `0`.
* `CLOCKS_PER_SEC` comes from the platform's `<time.h>`; it is a parameter.
* A read of `raw_tex` at an index outside the allocated buffer is undefined in
  C; it is modelled by the result `none`.
-/

namespace HuddleUp

/-! ## Constants and data types -/

/-- Screen width, `#define SCR_W 800`. -/
def SCR_W : Int := 800

/-- Screen height, `#define SCR_H 600`. -/
def SCR_H : Int := 600

/-- An `SDL_Color`, restricted to the three channels the program uses. -/
structure SDL_Color where
  r : Nat
  g : Nat
  b : Nat
deriving DecidableEq

/-- The camera, `object_t`: position and heading. -/
structure object_t (F : Type) where
  x : F
  y : F
  a : F

/-- The pacer record, `gameloop_t`. -/
structure gameloop_t (F : Type) where
  running : Nat
  last_time : Int
  time : Int
  timer : Int
  frames_per_second : Int
  ns : F
  delta : F
  delta_time : F
  frames : Int

/-- A textured plane, `plane_t`, after `CreatePlane` has released the surface:
the raw colours, the texture size, the two distances and the orientation flag
(documented in the source as `1 = ceiling, 2 = floor`). -/
structure plane_t (F : Type) where
  raw_tex : List SDL_Color
  tex_width : Int
  tex_height : Int
  local_near : F
  local_far : F
  orientation : Nat

/-- The application state, `state_t` (the `ceiling` plane is never initialised
by the program and is left out). -/
structure state_t (F : Type) where
  gameloop : gameloop_t F
  camera : object_t F
  floor : plane_t F

/-- A decoded bitmap as `CreatePlane` sees it: its size and the colour
`GetPixelFromSurface` returns for each position. -/
structure SDL_Surface where
  w : Int
  h : Int
  pixel : Int → Int → SDL_Color

/-- The events the loop of `Run` distinguishes. -/
inductive SDL_Event where
  | quit
  | keydown (scancode : Nat)
  | keyup (scancode : Nat)
  | other
deriving DecidableEq

/-- SDL scancode of the W key. -/
def SDL_SCANCODE_W : Nat := 26

/-- SDL scancode of the S key. -/
def SDL_SCANCODE_S : Nat := 22

/-- SDL scancode of the D key. -/
def SDL_SCANCODE_D : Nat := 7

/-- SDL scancode of the A key. -/
def SDL_SCANCODE_A : Nat := 4

section Embedding

variable {F : Type} [LinearOrderedField F] [FloorRing F]

/-! ## CreatePlane -/

/-- The function `CreatePlane`: `none` when `SDL_LoadBMP` fails, otherwise the
plane whose `raw_tex` is filled row by row, `raw_tex[y * tex_width + x]` being
the pixel `(x, y)` of the surface (allocation failure is not modelled). -/
def CreatePlane (near_dist far_dist : F) (orientation : Nat)
    (tex : Option SDL_Surface) : Option (plane_t F) :=
  match tex with
  | none => none
  | some s =>
    some
      { raw_tex :=
          (List.range s.h.toNat).flatMap fun y =>
            (List.range s.w.toNat).map fun x => s.pixel (x : Int) (y : Int)
        tex_width := s.w
        tex_height := s.h
        local_near := near_dist
        local_far := far_dist
        orientation := orientation }

/-! ## RenderPlane -/

/-- The C conversion `(int)v` of a floating value: the fractional part is
discarded (rounding toward zero). -/
def c_int_cast (v : F) : Int :=
  if 0 ≤ v then ⌊v⌋ else -⌊-v⌋

/-- What the colour resolution of `RenderPlane` does for one pixel: it either
takes black or reads `raw_tex` at an index. -/
inductive Lookup where
  | black
  | texel (index : Int)
deriving DecidableEq

/-- One emitted point: `glVertex2i(x, dy)` with colour `rgb`; `rgb = none`
stands for a colour read from outside the texture buffer. -/
structure Pixel where
  x : Int
  dy : Int
  rgb : Option SDL_Color
deriving DecidableEq

namespace RenderPlane

/-- Local `far_1_x`. -/
def far_1_x (cosf : F → F) (plane : plane_t F) (cx ca fov : F) : F :=
  cx + cosf (ca - fov / 2) * plane.local_far

/-- Local `far_1_y`. -/
def far_1_y (sinf : F → F) (plane : plane_t F) (cy ca fov : F) : F :=
  cy + sinf (ca - fov / 2) * plane.local_far

/-- Local `near_1_x`. -/
def near_1_x (cosf : F → F) (plane : plane_t F) (cx ca fov : F) : F :=
  cx + cosf (ca - fov / 2) * plane.local_near

/-- Local `near_1_y`. -/
def near_1_y (sinf : F → F) (plane : plane_t F) (cy ca fov : F) : F :=
  cy + sinf (ca - fov / 2) * plane.local_near

/-- Local `far_2_x`. -/
def far_2_x (cosf : F → F) (plane : plane_t F) (cx ca fov : F) : F :=
  cx + cosf (ca + fov / 2) * plane.local_far

/-- Local `far_2_y`. -/
def far_2_y (sinf : F → F) (plane : plane_t F) (cy ca fov : F) : F :=
  cy + sinf (ca + fov / 2) * plane.local_far

/-- Local `near_2_x`. -/
def near_2_x (cosf : F → F) (plane : plane_t F) (cx ca fov : F) : F :=
  cx + cosf (ca + fov / 2) * plane.local_near

/-- Local `near_2_y`. -/
def near_2_y (sinf : F → F) (plane : plane_t F) (cy ca fov : F) : F :=
  cy + sinf (ca + fov / 2) * plane.local_near

/-- Local `sample_depth` of row `y`: `(float)y / ((float)SCR_H / 2.0f)`. -/
def sample_depth (y : Int) : F :=
  (y : F) / ((SCR_H : F) / 2)

/-- Local `start_x`, as a function of the sample depth. -/
def start_x (cosf : F → F) (plane : plane_t F) (cx ca fov depth : F) : F :=
  (far_1_x cosf plane cx ca fov - near_1_x cosf plane cx ca fov) / depth
    + near_1_x cosf plane cx ca fov

/-- Local `start_y`, as a function of the sample depth. -/
def start_y (sinf : F → F) (plane : plane_t F) (cy ca fov depth : F) : F :=
  (far_1_y sinf plane cy ca fov - near_1_y sinf plane cy ca fov) / depth
    + near_1_y sinf plane cy ca fov

/-- Local `end_x`, as a function of the sample depth. -/
def end_x (cosf : F → F) (plane : plane_t F) (cx ca fov depth : F) : F :=
  (far_2_x cosf plane cx ca fov - near_2_x cosf plane cx ca fov) / depth
    + near_2_x cosf plane cx ca fov

/-- Local `end_y`, as a function of the sample depth. -/
def end_y (sinf : F → F) (plane : plane_t F) (cy ca fov depth : F) : F :=
  (far_2_y sinf plane cy ca fov - near_2_y sinf plane cy ca fov) / depth
    + near_2_y sinf plane cy ca fov

/-- Local `sample_width` of column `x`: `(float)x / (float)SCR_W`. -/
def sample_width (x : Int) : F :=
  (x : F) / (SCR_W : F)

/-- Local `sample_x` for row `y`, column `x`. -/
def sample_x (cosf : F → F) (plane : plane_t F) (cx ca fov : F) (y x : Int) : F :=
  (end_x cosf plane cx ca fov (sample_depth y) - start_x cosf plane cx ca fov (sample_depth y))
      * sample_width x
    + start_x cosf plane cx ca fov (sample_depth y)

/-- Local `sample_y` for row `y`, column `x`. -/
def sample_y (sinf : F → F) (plane : plane_t F) (cy ca fov : F) (y x : Int) : F :=
  (end_y sinf plane cy ca fov (sample_depth y) - start_y sinf plane cy ca fov (sample_depth y))
      * sample_width x
    + start_y sinf plane cy ca fov (sample_depth y)

/-- The texture column of a sample point: `(int)(sample_x * plane.tex_width)`. -/
def texCol (plane : plane_t F) (sx : F) : Int :=
  c_int_cast (sx * (plane.tex_width : F))

/-- The texture row of a sample point: `(int)(sample_y * plane.tex_height)`. -/
def texRow (plane : plane_t F) (sy : F) : Int :=
  c_int_cast (sy * (plane.tex_height : F))

/-- Local `tx` for row `y`, column `x`. -/
def tx (cosf : F → F) (plane : plane_t F) (cx ca fov : F) (y x : Int) : Int :=
  texCol plane (sample_x cosf plane cx ca fov y x)

/-- Local `ty` for row `y`, column `x`. -/
def ty (sinf : F → F) (plane : plane_t F) (cy ca fov : F) (y x : Int) : Int :=
  texRow plane (sample_y sinf plane cy ca fov y x)

/-- Local `dy`:
`plane.orientation ? y + SCR_H / 2 : SCR_H - (y + SCR_H / 2)`. -/
def dy (plane : plane_t F) (y : Int) : Int :=
  if plane.orientation ≠ 0 then y + SCR_H / 2 else SCR_H - (y + SCR_H / 2)

/-- The `if`/`else if` chain that resolves the colour from `(tx, ty)`.  The
first test, `isnan(tx) || isnan(ty)`, is applied to integers and never holds. -/
def resolve (plane : plane_t F) (tx ty : Int) : Lookup :=
  if tx < 0 ∨ ty < 0 then Lookup.black
  else if tx > plane.tex_width ∨ ty > plane.tex_height then Lookup.black
  else Lookup.texel (ty * plane.tex_width + tx)

/-- The colour a lookup yields: `(SDL_Color) { 0, 0, 0 }`, or the element of
`raw_tex` at the index (`none` when the index is outside the buffer). -/
def fetch (plane : plane_t F) : Lookup → Option SDL_Color
  | Lookup.black => some ⟨0, 0, 0⟩
  | Lookup.texel i => if i < 0 then none else plane.raw_tex[i.toNat]?

/-- Local `rgb` for row `y`, column `x`. -/
def rgb (cosf sinf : F → F) (plane : plane_t F) (cx cy ca fov : F) (y x : Int) :
    Option SDL_Color :=
  fetch plane (resolve plane (tx cosf plane cx ca fov y x) (ty sinf plane cy ca fov y x))

/-- The point emitted by the loop body for row `y`, column `x`. -/
def pixel (cosf sinf : F → F) (plane : plane_t F) (cx cy ca fov : F) (y x : Int) : Pixel :=
  { x := x, dy := dy plane y, rgb := rgb cosf sinf plane cx cy ca fov y x }

end RenderPlane

/-- The function `RenderPlane`: the points emitted, in order, for the rows
`y = 1 .. SCR_H / 2 - 1` and the columns `x = 1 .. SCR_W - 1`. -/
def RenderPlane (cosf sinf : F → F) (plane : plane_t F) (cx cy ca fov : F) : List Pixel :=
  (List.range' 1 (SCR_H / 2 - 1).toNat).flatMap fun y =>
    (List.range' 1 (SCR_W - 1).toNat).map fun x =>
      RenderPlane.pixel cosf sinf plane cx cy ca fov (y : Int) (x : Int)

/-! ## InitGameLoop, InitCamera, Tick, Render -/

/-- The function `InitGameLoop`: the record it writes, given the value `clock()`
returns.  Both quotients are C integer divisions (`clock_t / int32_t` and
`int / int32_t`), converted to `double` afterwards; it returns `1`. -/
def InitGameLoop (CLOCKS_PER_SEC : Int) (fps : Int) (clock : Int) : gameloop_t F :=
  { running := 1
    last_time := clock
    time := 0
    timer := 0
    frames_per_second := fps
    ns := ((Int.tdiv CLOCKS_PER_SEC fps : Int) : F)
    delta := 0
    delta_time := ((Int.tdiv 1 fps : Int) : F)
    frames := 0 }

/-- The function `InitCamera`: the camera it writes (`0`, `0`, `0.1f`). -/
def InitCamera : object_t F :=
  { x := 0, y := 0, a := 1 / 10 }

/-- The function `Tick`, with the global `keydown` table as an argument: the new
state and the returned flag.  The constants are `0.01f` and `0.1f`. -/
def Tick (cosf sinf : F → F) (keydown : Nat → Nat) (state : state_t F) : state_t F × Nat :=
  let dt := state.gameloop.delta_time
  let c0 := state.camera
  let c1 : object_t F :=
    if keydown SDL_SCANCODE_W ≠ 0 then
      { c0 with x := c0.x + cosf c0.a * dt * (1 / 100), y := c0.y + sinf c0.a * dt * (1 / 100) }
    else c0
  let c2 : object_t F :=
    if keydown SDL_SCANCODE_S ≠ 0 then
      { c1 with x := c1.x - cosf c1.a * dt * (1 / 100), y := c1.y - sinf c1.a * dt * (1 / 100) }
    else c1
  let c3 : object_t F :=
    if keydown SDL_SCANCODE_D ≠ 0 then { c2 with a := c2.a + dt * (1 / 10) } else c2
  let c4 : object_t F :=
    if keydown SDL_SCANCODE_A ≠ 0 then { c3 with a := c3.a - dt * (1 / 10) } else c3
  ({ state with camera := c4 }, 1)

/-- The function `Render`: the frame drawn (the floor plane seen from the
camera with field of view `1.57f`) and the returned flag. -/
def Render (cosf sinf : F → F) (state : state_t F) : List Pixel × Nat :=
  (RenderPlane cosf sinf state.floor state.camera.x state.camera.y state.camera.a (157 / 100), 1)

/-! ## Rounding of `double` results -/

/-- Rounding to the nearest integer, ties to the even one. -/
def rne (x : F) : Int :=
  if 2 * Int.fract x < 1 then ⌊x⌋
  else if 1 < 2 * Int.fract x then ⌊x⌋ + 1
  else if ⌊x⌋ % 2 = 0 then ⌊x⌋ else ⌊x⌋ + 1

/-- The IEEE 754 binary64 rounding of an exact result `x` to the nearest
`double`, ties to even: the significand has 53 bits, so `x` is rounded to a
multiple of `2 ^ e` with `e = floor(log2 |x|) - 52`, and `e` is at least
`-1074` (subnormal range). -/
def binary64 (x : F) : F :=
  if x = 0 then 0
  else ((rne (x / (2 : F) ^ max (Int.log 2 |x| - 52) (-1074)) : Int) : F)
    * (2 : F) ^ max (Int.log 2 |x| - 52) (-1074)

/-! ## The loop of Run -/

/-- Everything the loop of `Run` reads and writes: the state, the global
`keydown` table, the SDL event queue, the numbers printed on standard output
and the frames presented by `Render` (one per call). -/
structure World (F : Type) where
  state : state_t F
  keydown : Nat → Nat
  pending : List SDL_Event
  stdout : List Int
  presented : List (List Pixel)

/-- Clear the `running` flag. -/
def stop (state : state_t F) : state_t F :=
  { state with gameloop := { state.gameloop with running := 0 } }

/-- The body of `while (SDL_PollEvent(&e))` for one event. -/
def handleEvent (w : World F) (e : SDL_Event) : World F :=
  match e with
  | SDL_Event.quit => { w with state := stop w.state }
  | SDL_Event.keydown sc => { w with keydown := Function.update w.keydown sc 1 }
  | SDL_Event.keyup sc => { w with keydown := Function.update w.keydown sc 0 }
  | SDL_Event.other => w

/-- The loop `while (SDL_PollEvent(&e))`: every queued event is handled in
order and the queue is left empty. -/
def pollEvents (w : World F) : World F :=
  { w.pending.foldl handleEvent w with pending := [] }

/-- One iteration of `while (state.gameloop.running)` in `Run`, given the value
`now` returned by `clock()` and the events that arrived since the previous
iteration.  The accumulator `delta`, the time per tick `ns` and `delta_time`
are `double`: the quotient, the sum, the decrement and the two operations of
the report are each followed by the rounding `rnd` (the conversion of the
`clock_t` difference and of `frames` to `double` is exact below `2 ^ 53`). -/
def Run_iteration (CLOCKS_PER_SEC : Int) (rnd cosf sinf : F → F) (w : World F) (now : Int)
    (arrivals : List SDL_Event) : World F :=
  let g0 := w.state.gameloop
  let g1 : gameloop_t F :=
    { g0 with
      delta := rnd (g0.delta + rnd (((now - g0.last_time : Int) : F) / g0.ns))
      timer := g0.timer + (now - g0.last_time)
      last_time := now }
  let w1 : World F :=
    { w with state := { w.state with gameloop := g1 }, pending := w.pending ++ arrivals }
  if 1 ≤ g1.delta then
    let w2 := pollEvents w1
    let t := Tick cosf sinf w2.keydown w2.state
    let s3 := if t.2 = 0 then stop t.1 else t.1
    let r := Render cosf sinf s3
    let s4 := if r.2 = 0 then stop s3 else s3
    let g5 : gameloop_t F :=
      { s4.gameloop with frames := s4.gameloop.frames + 1, delta := rnd (s4.gameloop.delta - 1) }
    if CLOCKS_PER_SEC ≤ g5.timer then
      { w2 with
        state :=
          { s4 with
            gameloop :=
              { g5 with
                time := g5.time + CLOCKS_PER_SEC
                delta_time := rnd (rnd (1 / (g5.frames : F)) * 25)
                timer := 0
                frames := 0 } }
        stdout := w2.stdout ++ [g5.frames]
        presented := w2.presented ++ [r.1] }
    else
      { w2 with state := { s4 with gameloop := g5 }, presented := w2.presented ++ [r.1] }
  else w1

/-- The loop `while (state.gameloop.running)`, run for as many iterations as
inputs are given.  Each input is the number of clock units elapsed since the
previous reading of `clock()` (so `now = last_time + elapsed`) and the events
that arrived meanwhile. -/
def Run_loop (CLOCKS_PER_SEC : Int) (rnd cosf sinf : F → F) :
    World F → List (Int × List SDL_Event) → World F
  | w, [] => w
  | w, i :: rest =>
    if w.state.gameloop.running ≠ 0 then
      Run_loop CLOCKS_PER_SEC rnd cosf sinf
        (Run_iteration CLOCKS_PER_SEC rnd cosf sinf w (w.state.gameloop.last_time + i.1) i.2) rest
    else w

/-- The world in which the loop of `Run` starts once `Init` has succeeded:
`InitCamera`, `InitGameLoop(state, 72)`, the floor created with distances
`0.001f`, `0.06f` and orientation `1`, no key held, nothing printed or drawn. -/
def Init (CLOCKS_PER_SEC : Int) (clock : Int) (tex : Option SDL_Surface) : Option (World F) :=
  match CreatePlane (1 / 1000 : F) (6 / 100) 1 tex with
  | none => none
  | some floor =>
    some
      { state :=
          { gameloop := InitGameLoop CLOCKS_PER_SEC 72 clock
            camera := InitCamera
            floor := floor }
        keydown := fun _ => 0
        pending := []
        stdout := []
        presented := [] }

/-! ## Observables used in the statements -/

/-- The accumulator of the pacer (`gameloop.delta`). -/
def accumulator (w : World F) : F :=
  w.state.gameloop.delta

/-- The number of ticks performed so far: every tick is followed by exactly one
`Render`, which presents one frame. -/
def ticks (w : World F) : Nat :=
  w.presented.length

/-- No quit request is among the events. -/
def noQuit (events : List SDL_Event) : Prop :=
  SDL_Event.quit ∉ events

/-- The value `1` when the key with the given scancode is held (its `keydown`
entry is non-zero) and `0` otherwise. -/
def held (keydown : Nat → Nat) (scancode : Nat) : F :=
  if keydown scancode ≠ 0 then 1 else 0

/-- The square of the Euclidean distance between `(px, py)` and `(qx, qy)`. -/
def distSq (px py qx qy : F) : F :=
  (px - qx) ^ 2 + (py - qy) ^ 2

/-- The squared distance, on row `y`, between the scanline start point and the
left far point. -/
def startDistSq (cosf sinf : F → F) (plane : plane_t F) (cx cy ca fov : F) (y : Int) : F :=
  distSq (RenderPlane.start_x cosf plane cx ca fov (RenderPlane.sample_depth y))
    (RenderPlane.start_y sinf plane cy ca fov (RenderPlane.sample_depth y))
    (RenderPlane.far_1_x cosf plane cx ca fov) (RenderPlane.far_1_y sinf plane cy ca fov)

/-- The squared distance, on row `y`, between the scanline end point and the
right far point. -/
def endDistSq (cosf sinf : F → F) (plane : plane_t F) (cx cy ca fov : F) (y : Int) : F :=
  distSq (RenderPlane.end_x cosf plane cx ca fov (RenderPlane.sample_depth y))
    (RenderPlane.end_y sinf plane cy ca fov (RenderPlane.sample_depth y))
    (RenderPlane.far_2_x cosf plane cx ca fov) (RenderPlane.far_2_y sinf plane cy ca fov)

/-- The 2x2 texture `[red, green, blue, white]`, row-major. -/
def rgbw : List SDL_Color :=
  [⟨255, 0, 0⟩, ⟨0, 255, 0⟩, ⟨0, 0, 255⟩, ⟨255, 255, 255⟩]

/-- The plane of the end-to-end scenario: near `0.001`, far `0.06`, the 2x2
texture `rgbw`, and the given orientation flag. -/
def scenarioPlane (orientation : Nat) : plane_t F :=
  { raw_tex := rgbw
    tex_width := 2
    tex_height := 2
    local_near := 1 / 1000
    local_far := 6 / 100
    orientation := orientation }

/-- The 2x2 bitmap whose pixels are `rgbw`. -/
def rgbwSurface : SDL_Surface :=
  { w := 2
    h := 2
    pixel := fun x y =>
      if y = 0 then (if x = 0 then ⟨255, 0, 0⟩ else ⟨0, 255, 0⟩)
      else (if x = 0 then ⟨0, 0, 255⟩ else ⟨255, 255, 255⟩) }

/-- The world in which the loop starts when `clock()` first returns `0`, the
floor texture is the 2x2 bitmap and `CLOCKS_PER_SEC` is `1000`; it is the value
of `Init 1000 0 (some rgbwSurface)`. -/
def startWorld : World F :=
  { state :=
      { gameloop := InitGameLoop 1000 72 0
        camera := InitCamera
        floor := scenarioPlane 1 }
    keydown := fun _ => 0
    pending := []
    stdout := []
    presented := [] }

/-- The loop is running at `13` clock units per tick with no quit request
queued, accumulator `a` and `t` ticks performed. -/
def paced (w : World F) (a : F) (t : Nat) : Prop :=
  w.state.gameloop.running ≠ 0 ∧ noQuit w.pending ∧ w.state.gameloop.ns = 13
    ∧ accumulator w = a ∧ ticks w = t

end Embedding

/-! ## Properties -/

set_option linter.unusedSectionVars false

section Helpers

variable {F : Type} [LinearOrderedField F] [FloorRing F]

/-- The integer cast is the floor on non-negative values. -/
theorem c_int_cast_of_nonneg {v : F} (h : 0 ≤ v) : c_int_cast v = ⌊v⌋ := by
  simp [c_int_cast, h]

/-- The integer cast is the ceiling on negative values. -/
theorem c_int_cast_of_neg {v : F} (h : v < 0) : c_int_cast v = ⌈v⌉ := by
  simp [c_int_cast, not_le.mpr h, Int.floor_neg]

/-- The integer cast is negative exactly from `-1` downwards. -/
theorem c_int_cast_neg_iff (v : F) : c_int_cast v < 0 ↔ v ≤ -1 := by
  by_cases h : 0 ≤ v
  · rw [c_int_cast_of_nonneg h]
    constructor
    · intro h1
      have : (0 : Int) ≤ ⌊v⌋ := Int.floor_nonneg.mpr h
      omega
    · intro h1
      linarith
  · push_neg at h
    rw [c_int_cast_of_neg h]
    constructor
    · intro h1
      have h2 : ⌈v⌉ ≤ -1 := by omega
      have h3 : v ≤ ((-1 : Int) : F) := Int.ceil_le.mp h2
      simpa using h3
    · intro h1
      have h3 : v ≤ ((-1 : Int) : F) := by simpa using h1
      have h2 : ⌈v⌉ ≤ -1 := Int.ceil_le.mpr h3
      omega

/-- A value strictly between `n` and `n + 1`, `n` a natural number, is cast to `n`. -/
theorem c_int_cast_eq_of_mem {v : F} {n : Nat} (h1 : (n : F) ≤ v) (h2 : v < n + 1) :
    c_int_cast v = n := by
  have h0 : (0 : F) ≤ v := le_trans (Nat.cast_nonneg n) h1
  rw [c_int_cast_of_nonneg h0]
  rw [Int.floor_eq_iff]
  constructor
  · simpa using h1
  · simpa using h2

end Helpers

section Scenario

/-- The cosine of half the field of view `1.57` lies in `(0, 1]`. -/
theorem cos_half_fov : 0 < Real.cos (157 / 200) ∧ Real.cos (157 / 200) ≤ 1 := by
  refine ⟨?_, Real.cos_le_one _⟩
  apply Real.cos_pos_of_mem_Ioo
  have hpi := Real.pi_gt_three
  constructor <;> linarith

/-- In the scenario (heading `0`, field of view `1.57`), the sample point of row
`299`, column `400` lies straight ahead of the camera. -/
theorem scenario_sample_x (o : Nat) (cx : ℝ) :
    RenderPlane.sample_x Real.cos (scenarioPlane o) cx 0 (157 / 100) 299 400
      = cx + Real.cos (157 / 200) * (17999 / 299000) := by
  have e1 : (0 : ℝ) - 157 / 100 / 2 = -(157 / 200) := by norm_num
  have e2 : (0 : ℝ) + 157 / 100 / 2 = 157 / 200 := by norm_num
  simp only [RenderPlane.sample_x, RenderPlane.start_x, RenderPlane.end_x, RenderPlane.far_1_x,
    RenderPlane.near_1_x, RenderPlane.far_2_x, RenderPlane.near_2_x, RenderPlane.sample_depth,
    RenderPlane.sample_width, scenarioPlane, SCR_H, SCR_W, e1, e2, Real.cos_neg]
  push_cast
  ring

/-- In the scenario, the sample point of row `299`, column `400` has the
camera's own `y`. -/
theorem scenario_sample_y (o : Nat) (cy : ℝ) :
    RenderPlane.sample_y Real.sin (scenarioPlane o) cy 0 (157 / 100) 299 400 = cy := by
  have e1 : (0 : ℝ) - 157 / 100 / 2 = -(157 / 200) := by norm_num
  have e2 : (0 : ℝ) + 157 / 100 / 2 = 157 / 200 := by norm_num
  simp only [RenderPlane.sample_y, RenderPlane.start_y, RenderPlane.end_y, RenderPlane.far_1_y,
    RenderPlane.near_1_y, RenderPlane.far_2_y, RenderPlane.near_2_y, RenderPlane.sample_depth,
    RenderPlane.sample_width, scenarioPlane, SCR_H, SCR_W, e1, e2, Real.sin_neg]
  push_cast
  ring

/-- In the scenario with the camera at `x = 1`, row `299`, column `400` maps to
texture column `2`, the texture width. -/
theorem scenario_tx_at_one (o : Nat) :
    RenderPlane.tx Real.cos (scenarioPlane o) 1 0 (157 / 100) 299 400 = 2 := by
  obtain ⟨hpos, hle⟩ := cos_half_fov
  rw [RenderPlane.tx, scenario_sample_x, RenderPlane.texCol]
  have h := c_int_cast_eq_of_mem (F := ℝ) (n := 2)
    (v := (1 + Real.cos (157 / 200) * (17999 / 299000)) * (((scenarioPlane o : plane_t ℝ).tex_width : Int) : ℝ))
    (by simp only [scenarioPlane]; push_cast; nlinarith)
    (by simp only [scenarioPlane]; push_cast; nlinarith)
  simpa using h

/-- In the scenario with the camera at `x = 0`, row `299`, column `400` maps to
texture column `0`. -/
theorem scenario_tx_at_zero (o : Nat) :
    RenderPlane.tx Real.cos (scenarioPlane o) 0 0 (157 / 100) 299 400 = 0 := by
  obtain ⟨hpos, hle⟩ := cos_half_fov
  rw [RenderPlane.tx, scenario_sample_x, RenderPlane.texCol]
  have h := c_int_cast_eq_of_mem (F := ℝ) (n := 0)
    (v := (0 + Real.cos (157 / 200) * (17999 / 299000)) * (((scenarioPlane o : plane_t ℝ).tex_width : Int) : ℝ))
    (by simp only [scenarioPlane]; push_cast; nlinarith)
    (by simp only [scenarioPlane]; push_cast; nlinarith)
  simpa using h

/-- In the scenario, row `299`, column `400` maps to the texture row of the
camera's own `y`. -/
theorem scenario_ty (o : Nat) (cy : ℝ) :
    RenderPlane.ty Real.sin (scenarioPlane o) cy 0 (157 / 100) 299 400 = c_int_cast (cy * 2) := by
  rw [RenderPlane.ty, scenario_sample_y, RenderPlane.texRow]
  simp [scenarioPlane]

end Scenario

section Rounding

variable {F : Type} [LinearOrderedField F] [FloorRing F]

/-- A value at most half a unit above an integer, and closer to it than to the
next one, is rounded to that integer. -/
theorem rne_of_lt (x : F) (f : Int) (h1 : (f : F) ≤ x) (h2 : 2 * (x - f) < 1) : rne x = f := by
  have hf : ⌊x⌋ = f := by
    rw [Int.floor_eq_iff]
    constructor
    · exact h1
    · linarith
  have hfr : Int.fract x = x - f := by rw [Int.fract, hf]
  simp [rne, hfr, h2, hf]

/-- A value more than half a unit above an integer is rounded to the next one. -/
theorem rne_of_gt (x : F) (f : Int) (h1 : x < (f : F) + 1) (h2 : 1 < 2 * (x - f)) :
    rne x = f + 1 := by
  have hf : ⌊x⌋ = f := by
    rw [Int.floor_eq_iff]
    constructor
    · linarith
    · exact h1
  have hfr : Int.fract x = x - f := by rw [Int.fract, hf]
  simp [rne, hfr, h2, hf, not_lt.mpr h2.le]

/-- A value exactly half a unit above an integer is rounded to the even
neighbour. -/
theorem rne_tie (x : F) (f : Int) (h : 2 * (x - f) = 1) :
    rne x = if f % 2 = 0 then f else f + 1 := by
  have hf : ⌊x⌋ = f := by
    rw [Int.floor_eq_iff]
    constructor <;> linarith
  have hfr : Int.fract x = x - f := by rw [Int.fract, hf]
  simp [rne, hfr, h, hf]

/-- An integer is rounded to itself. -/
theorem rne_intCast (z : Int) : rne (z : F) = z := by
  apply rne_of_lt
  · exact le_refl _
  · simp

/-- Rounding never goes below the floor. -/
theorem floor_le_rne (x : F) : ⌊x⌋ ≤ rne x := by
  unfold rne
  split_ifs <;> omega

/-- Rounding does not cross an integer upper bound. -/
theorem rne_le_of_le (x : F) (z : Int) (h : x ≤ (z : F)) : rne x ≤ z := by
  have hfl : ⌊x⌋ ≤ z := Int.floor_le_floor h |>.trans (by simp)
  by_cases hx : Int.fract x = 0
  · have : rne x = ⌊x⌋ := by simp [rne, hx]
    omega
  · have hne : x ≠ (z : F) := by
      intro he
      apply hx
      rw [he]
      simp
    have hlt : x < (z : F) := lt_of_le_of_ne h hne
    have : ⌊x⌋ < z := Int.floor_lt.mpr hlt
    unfold rne
    split_ifs <;> omega

/-- Rounding does not cross an integer lower bound. -/
theorem le_rne_of_le (x : F) (z : Int) (h : (z : F) ≤ x) : z ≤ rne x :=
  (Int.le_floor.mpr h).trans (floor_le_rne x)

/-- A value less than half a unit away from an integer is rounded to it. -/
theorem rne_of_near (x : F) (m : Int) (h1 : -1 < 2 * (x - (m : F))) (h2 : 2 * (x - (m : F)) < 1) :
    rne x = m := by
  rcases le_or_lt (m : F) x with hx | hx
  · exact rne_of_lt x m hx h2
  · have := rne_of_gt x (m - 1) (by push_cast; linarith) (by push_cast; linarith)
    rw [this]
    ring

/-- A value exactly half a unit away from an even integer is rounded to it. -/
theorem rne_of_tie (x : F) (m : Int) (h : 2 * (x - (m : F)) = 1 ∨ 2 * (x - (m : F)) = -1)
    (hm : m % 2 = 0) : rne x = m := by
  rcases h with h | h
  · rw [rne_tie x m h, if_pos hm]
  · have := rne_tie x (m - 1) (by push_cast; linarith)
    rw [this, if_neg (by omega)]
    ring

/-- The binary64 rounding of a value in the binade `[2 ^ (e + 52), 2 ^ (e + 53))`
is its multiple of `2 ^ e` given by `rne`. -/
theorem binary64_eq_of (x : F) (e m : Int) (he : -1074 ≤ e) (h1 : (2 : F) ^ (e + 52) ≤ |x|)
    (h2 : |x| < (2 : F) ^ (e + 52 + 1)) (hm : rne (x / (2 : F) ^ e) = m) :
    binary64 x = (m : F) * (2 : F) ^ e := by
  have hpos : (0 : F) < |x| := lt_of_lt_of_le (zpow_pos (by norm_num) _) h1
  have hx : x ≠ 0 := abs_pos.mp hpos
  have hlog : Int.log 2 |x| = e + 52 := by
    apply le_antisymm
    · have := (Int.lt_zpow_iff_log_lt (b := 2) (by norm_num) hpos).mp (by exact_mod_cast h2)
      omega
    · exact (Int.zpow_le_iff_le_log (b := 2) (by norm_num) hpos).mp (by exact_mod_cast h1)
  have hmax : max (Int.log 2 |x| - 52) (-1074) = e := by
    rw [hlog]
    omega
  rw [binary64, if_neg hx, hmax, hm]

/-- Below `2 ^ 53` the unit in the last place is at most `1`. -/
theorem exponent_nonpos (x : F) (h0 : 0 < |x|) (h1 : |x| < (2 : F) ^ (53 : Nat)) :
    ∃ k : Nat, max (Int.log 2 |x| - 52) (-1074) = -(k : Int) := by
  have hl : Int.log 2 |x| < 53 := by
    apply (Int.lt_zpow_iff_log_lt (b := 2) (by norm_num) h0).mp
    have : ((2 : Nat) : F) ^ (53 : Int) = (2 : F) ^ (53 : Nat) := by norm_num
    rw [this]
    exact h1
  refine ⟨(-(max (Int.log 2 |x| - 52) (-1074))).toNat, ?_⟩
  omega

/-- Every whole number below `2 ^ 53` is a `double`: rounding leaves it alone. -/
theorem binary64_natCast (n : Nat) (h : n < 2 ^ 53) : binary64 (n : F) = n := by
  rcases Nat.eq_zero_or_pos n with h0 | h0
  · simp [h0, binary64]
  · have hn : (0 : F) < (n : F) := by exact_mod_cast h0
    have habs : |(n : F)| = n := abs_of_pos hn
    have hlt : |(n : F)| < (2 : F) ^ (53 : Nat) := by
      rw [habs]
      exact_mod_cast h
    obtain ⟨k, hk⟩ := exponent_nonpos (n : F) (by rw [habs]; exact hn) hlt
    have hp : (0 : F) < (2 : F) ^ k := by positivity
    have hdiv : (n : F) / (2 : F) ^ (-(k : Int)) = (((n * 2 ^ k : Nat) : Int) : F) := by
      rw [zpow_neg, zpow_natCast, div_inv_eq_mul]
      push_cast
      ring
    rw [binary64, if_neg (ne_of_gt hn), hk, hdiv, rne_intCast, zpow_neg, zpow_natCast]
    push_cast
    field_simp

/-- The binary64 rounding of a non-negative value is non-negative. -/
theorem binary64_nonneg (x : F) (h : 0 ≤ x) : 0 ≤ binary64 x := by
  unfold binary64
  split_ifs with h0
  · exact le_refl _
  · apply mul_nonneg
    · have : (0 : Int) ≤ rne (x / (2 : F) ^ max (Int.log 2 |x| - 52) (-1074)) :=
        le_rne_of_le _ 0 (by
          push_cast
          exact div_nonneg h (le_of_lt (zpow_pos (by norm_num) _)))
      exact_mod_cast this
    · exact le_of_lt (zpow_pos (by norm_num) _)

/-- The binary64 rounding does not cross a whole number below `2 ^ 53` from
below. -/
theorem binary64_le_natCast (x : F) (n : Nat) (hn : n < 2 ^ 53) (h : x ≤ (n : F)) :
    binary64 x ≤ (n : F) := by
  rcases lt_trichotomy x 0 with hx | hx | hx
  · have hle : binary64 x ≤ 0 := by
      rw [binary64, if_neg (ne_of_lt hx)]
      apply mul_nonpos_of_nonpos_of_nonneg
      · have : rne (x / (2 : F) ^ max (Int.log 2 |x| - 52) (-1074)) ≤ 0 :=
          rne_le_of_le _ 0 (by
            push_cast
            exact div_nonpos_of_nonpos_of_nonneg hx.le (le_of_lt (zpow_pos (by norm_num) _)))
        exact_mod_cast this
      · exact le_of_lt (zpow_pos (by norm_num) _)
    exact hle.trans (Nat.cast_nonneg n)
  · rw [hx]
    simp [binary64]
  · have habs : |x| = x := abs_of_pos hx
    have hlt : |x| < (2 : F) ^ (53 : Nat) := by
      rw [habs]
      have : (n : F) < (2 : F) ^ (53 : Nat) := by exact_mod_cast hn
      linarith
    obtain ⟨k, hk⟩ := exponent_nonpos x (by rw [habs]; exact hx) hlt
    have hp : (0 : F) < (2 : F) ^ k := by positivity
    have hr : rne (x / (2 : F) ^ (-(k : Int))) ≤ ((n * 2 ^ k : Nat) : Int) := by
      apply rne_le_of_le
      rw [zpow_neg, zpow_natCast, div_inv_eq_mul]
      push_cast
      exact mul_le_mul_of_nonneg_right h hp.le
    have hr' : ((rne (x / (2 : F) ^ (-(k : Int))) : Int) : F) ≤ (n : F) * (2 : F) ^ k := by
      have : ((rne (x / (2 : F) ^ (-(k : Int))) : Int) : F) ≤ ((((n * 2 ^ k : Nat) : Int)) : F) := by
        exact_mod_cast hr
      simpa using this
    rw [binary64, if_neg (ne_of_gt hx), hk, zpow_neg, zpow_natCast]
    rw [← div_eq_mul_inv, div_le_iff₀ hp]
    rw [zpow_neg, zpow_natCast] at hr'
    exact hr'

/-- Zero is a `double`. -/
theorem binary64_zero : binary64 (0 : F) = 0 := by
  simp [binary64]

/-- One is a `double`. -/
theorem binary64_one : binary64 (1 : F) = 1 := by
  simpa using binary64_natCast (F := F) 1 (by norm_num)

end Rounding

section Binary64Values

/-- The `double` nearest to `2/13`. -/
theorem binary64_two_thirteenths : binary64 (2 / 13 : ℝ) = 1385722962267845 / 2 ^ 53 := by
  rw [binary64_eq_of _ (-55) 5542891849071380 (by norm_num) (by norm_num [abs_of_pos])
    (by norm_num [abs_of_pos]) (rne_of_near _ _ (by norm_num) (by norm_num))]
  norm_num

/-- The `double` nearest to `2/13` is a `double`. -/
theorem binary64_r2_1 : binary64 (0 + 1385722962267845 / 2 ^ 53 : ℝ) = 1385722962267845 / 2 ^ 53 := by
  rw [binary64_eq_of _ (-55) 5542891849071380 (by norm_num) (by norm_num [abs_of_pos])
    (by norm_num [abs_of_pos]) (rne_of_near _ _ (by norm_num) (by norm_num))]
  norm_num

/-- Adding `1` to the `double` nearest to `2/13`. -/
theorem binary64_r2_2 : binary64 (1385722962267845 / 2 ^ 53 + 1 : ℝ) = 2598230554252209 / 2 ^ 51 := by
  rw [binary64_eq_of _ (-52) 5196461108504418 (by norm_num) (by norm_num [abs_of_pos])
    (by norm_num [abs_of_pos]) (rne_of_tie _ _ (by norm_num) (by norm_num))]
  norm_num

/-- Taking `1` off again. -/
theorem binary64_r2_3 : binary64 (2598230554252209 / 2 ^ 51 - 1 : ℝ) = 346430740566961 / 2 ^ 51 := by
  rw [binary64_eq_of _ (-55) 5542891849071376 (by norm_num) (by norm_num [abs_of_pos])
    (by norm_num [abs_of_pos]) (rne_of_near _ _ (by norm_num) (by norm_num))]
  norm_num

/-- The `double` nearest to `11/13`. -/
theorem binary64_eleven_thirteenths : binary64 (11 / 13 : ℝ) = 7621476292473147 / 2 ^ 53 := by
  rw [binary64_eq_of _ (-53) 7621476292473147 (by norm_num) (by norm_num [abs_of_pos])
    (by norm_num [abs_of_pos]) (rne_of_near _ _ (by norm_num) (by norm_num))]
  norm_num

/-- Adding the `double` nearest to `11/13`. -/
theorem binary64_r2_4 : binary64 (346430740566961 / 2 ^ 51 + 7621476292473147 / 2 ^ 53 : ℝ) = 9007199254740991 / 2 ^ 53 := by
  rw [binary64_eq_of _ (-53) 9007199254740991 (by norm_num) (by norm_num [abs_of_pos])
    (by norm_num [abs_of_pos]) (rne_of_near _ _ (by norm_num) (by norm_num))]
  norm_num

/-- Adding `1`: the sum is rounded up to `2`. -/
theorem binary64_r2_5 : binary64 (9007199254740991 / 2 ^ 53 + 1 : ℝ) = 2 := by
  rw [binary64_eq_of _ (-52) 9007199254740992 (by norm_num) (by norm_num [abs_of_pos])
    (by norm_num [abs_of_pos]) (rne_of_tie _ _ (by norm_num) (by norm_num))]
  norm_num

/-- The `double` nearest to `12/13`. -/
theorem binary64_twelve_thirteenths : binary64 (12 / 13 : ℝ) = 4157168886803535 / 2 ^ 52 := by
  rw [binary64_eq_of _ (-53) 8314337773607070 (by norm_num) (by norm_num [abs_of_pos])
    (by norm_num [abs_of_pos]) (rne_of_near _ _ (by norm_num) (by norm_num))]
  norm_num

/-- The `double` nearest to `12/13` is a `double`. -/
theorem binary64_twelve_thirteenths_fixed : binary64 (0 + 4157168886803535 / 2 ^ 52 : ℝ) = 4157168886803535 / 2 ^ 52 := by
  rw [binary64_eq_of _ (-53) 8314337773607070 (by norm_num) (by norm_num [abs_of_pos])
    (by norm_num [abs_of_pos]) (rne_of_near _ _ (by norm_num) (by norm_num))]
  norm_num

end Binary64Values

section Pacer

variable {F : Type} [LinearOrderedField F] [FloorRing F]

/-- Handling events changes nothing but the `keydown` table and the `running`
flag, and not even the flag when no quit request is among them. -/
theorem foldl_handleEvent_spec (evs : List SDL_Event) (w : World F) :
    (evs.foldl handleEvent w).state.camera = w.state.camera
    ∧ (evs.foldl handleEvent w).state.floor = w.state.floor
    ∧ (evs.foldl handleEvent w).stdout = w.stdout
    ∧ (evs.foldl handleEvent w).presented = w.presented
    ∧ (evs.foldl handleEvent w).state.gameloop
        = { w.state.gameloop with running := (evs.foldl handleEvent w).state.gameloop.running }
    ∧ (noQuit evs → (evs.foldl handleEvent w).state.gameloop.running
        = w.state.gameloop.running) := by
  induction evs generalizing w with
  | nil => simp [noQuit]
  | cons e rest ih =>
    obtain ⟨h1, h2, h3, h4, h5, h6⟩ := ih (handleEvent w e)
    simp only [List.foldl_cons]
    cases e with
    | quit =>
      refine ⟨by rw [h1]; rfl, by rw [h2]; rfl, by rw [h3]; rfl, by rw [h4]; rfl, ?_, ?_⟩
      · rw [h5]; rfl
      · intro hq
        exact absurd (List.mem_cons_self _ _) hq
    | keydown sc =>
      refine ⟨by rw [h1]; rfl, by rw [h2]; rfl, by rw [h3]; rfl, by rw [h4]; rfl, ?_, ?_⟩
      · rw [h5]; rfl
      · intro hq
        have hq2 : noQuit rest := fun hm => hq (List.mem_cons_of_mem _ hm)
        rw [h6 hq2]; rfl
    | keyup sc =>
      refine ⟨by rw [h1]; rfl, by rw [h2]; rfl, by rw [h3]; rfl, by rw [h4]; rfl, ?_, ?_⟩
      · rw [h5]; rfl
      · intro hq
        have hq2 : noQuit rest := fun hm => hq (List.mem_cons_of_mem _ hm)
        rw [h6 hq2]; rfl
    | other =>
      refine ⟨by rw [h1]; rfl, by rw [h2]; rfl, by rw [h3]; rfl, by rw [h4]; rfl, ?_, ?_⟩
      · rw [h5]; rfl
      · intro hq
        have hq2 : noQuit rest := fun hm => hq (List.mem_cons_of_mem _ hm)
        rw [h6 hq2]; rfl

/-- `Tick` leaves the pacer record alone. -/
theorem Tick_gameloop (cosf sinf : F → F) (keydown : Nat → Nat) (state : state_t F) :
    (Tick cosf sinf keydown state).1.gameloop = state.gameloop := rfl

/-- `Tick` leaves the floor alone. -/
theorem Tick_floor (cosf sinf : F → F) (keydown : Nat → Nat) (state : state_t F) :
    (Tick cosf sinf keydown state).1.floor = state.floor := rfl

/-- `Tick` returns `1`. -/
theorem Tick_snd (cosf sinf : F → F) (keydown : Nat → Nat) (state : state_t F) :
    (Tick cosf sinf keydown state).2 = 1 := rfl

/-- `Render` returns `1`. -/
theorem Render_snd (cosf sinf : F → F) (state : state_t F) :
    (Render cosf sinf state).2 = 1 := rfl

/-- An iteration in which the accumulator stays below `1` only books the
elapsed time and queues the arrived events. -/
theorem Run_iteration_idle (CLOCKS_PER_SEC : Int) (rnd cosf sinf : F → F) (w : World F)
    (now : Int) (arrivals : List SDL_Event)
    (h : rnd (w.state.gameloop.delta
        + rnd (((now - w.state.gameloop.last_time : Int) : F) / w.state.gameloop.ns)) < 1) :
    Run_iteration CLOCKS_PER_SEC rnd cosf sinf w now arrivals
      = { w with
          state :=
            { w.state with
              gameloop :=
                { w.state.gameloop with
                  delta := rnd (w.state.gameloop.delta
                    + rnd (((now - w.state.gameloop.last_time : Int) : F) / w.state.gameloop.ns))
                  timer := w.state.gameloop.timer + (now - w.state.gameloop.last_time)
                  last_time := now } }
          pending := w.pending ++ arrivals } := by
  unfold Run_iteration
  simp only [not_le.mpr h, if_false]

/-- An iteration in which the accumulator reaches `1`: one tick and one frame,
one unit taken from the accumulator, the queue emptied, and the loop kept
running when no quit request was queued. -/
theorem Run_iteration_tick (CLOCKS_PER_SEC : Int) (rnd cosf sinf : F → F) (w : World F)
    (now : Int) (arrivals : List SDL_Event)
    (h : 1 ≤ rnd (w.state.gameloop.delta
        + rnd (((now - w.state.gameloop.last_time : Int) : F) / w.state.gameloop.ns))) :
    (Run_iteration CLOCKS_PER_SEC rnd cosf sinf w now arrivals).state.gameloop.delta
        = rnd (rnd (w.state.gameloop.delta
            + rnd (((now - w.state.gameloop.last_time : Int) : F) / w.state.gameloop.ns)) - 1)
    ∧ (Run_iteration CLOCKS_PER_SEC rnd cosf sinf w now arrivals).state.gameloop.ns
        = w.state.gameloop.ns
    ∧ (Run_iteration CLOCKS_PER_SEC rnd cosf sinf w now arrivals).state.gameloop.last_time = now
    ∧ (Run_iteration CLOCKS_PER_SEC rnd cosf sinf w now arrivals).presented.length
        = w.presented.length + 1
    ∧ (Run_iteration CLOCKS_PER_SEC rnd cosf sinf w now arrivals).pending = []
    ∧ (noQuit (w.pending ++ arrivals) →
        (Run_iteration CLOCKS_PER_SEC rnd cosf sinf w now arrivals).state.gameloop.running
          = w.state.gameloop.running) := by
  obtain ⟨-, -, -, h4, h5, h6⟩ := foldl_handleEvent_spec (w.pending ++ arrivals)
    ({ w with
        state :=
          { w.state with
            gameloop :=
              { w.state.gameloop with
                delta := rnd (w.state.gameloop.delta
                  + rnd (((now - w.state.gameloop.last_time : Int) : F) / w.state.gameloop.ns))
                timer := w.state.gameloop.timer + (now - w.state.gameloop.last_time)
                last_time := now } }
        pending := w.pending ++ arrivals } : World F)
  unfold Run_iteration
  simp only [h, if_true, Tick_snd, Render_snd, one_ne_zero, if_false, Tick_gameloop, pollEvents]
  split_ifs with hrep
  · simp only [List.length_append, List.length_singleton, h4]
    rw [h5]
    refine ⟨?_, ?_, ?_, ?_, ?_, h6⟩ <;> first | rfl | trivial
  · simp only [List.length_append, List.length_singleton, h4]
    rw [h5]
    refine ⟨?_, ?_, ?_, ?_, ?_, h6⟩ <;> first | rfl | trivial

/-- In one iteration the time per tick is kept, the clock reading is stored,
and either the rounded sum stays below `1` and becomes the accumulator, or it
reached `1`, one tick is performed and the accumulator is the rounded sum
less one, rounded. -/
theorem Run_iteration_step (CLOCKS_PER_SEC : Int) (rnd cosf sinf : F → F) (w : World F)
    (now : Int) (arrivals : List SDL_Event) :
    (Run_iteration CLOCKS_PER_SEC rnd cosf sinf w now arrivals).state.gameloop.ns
        = w.state.gameloop.ns
    ∧ (Run_iteration CLOCKS_PER_SEC rnd cosf sinf w now arrivals).state.gameloop.last_time = now
    ∧ ((rnd (accumulator w
              + rnd (((now - w.state.gameloop.last_time : Int) : F) / w.state.gameloop.ns)) < 1
          ∧ accumulator (Run_iteration CLOCKS_PER_SEC rnd cosf sinf w now arrivals)
              = rnd (accumulator w
                + rnd (((now - w.state.gameloop.last_time : Int) : F) / w.state.gameloop.ns))
          ∧ ticks (Run_iteration CLOCKS_PER_SEC rnd cosf sinf w now arrivals) = ticks w)
        ∨ (1 ≤ rnd (accumulator w
              + rnd (((now - w.state.gameloop.last_time : Int) : F) / w.state.gameloop.ns))
          ∧ accumulator (Run_iteration CLOCKS_PER_SEC rnd cosf sinf w now arrivals)
              = rnd (rnd (accumulator w
                + rnd (((now - w.state.gameloop.last_time : Int) : F) / w.state.gameloop.ns)) - 1)
          ∧ ticks (Run_iteration CLOCKS_PER_SEC rnd cosf sinf w now arrivals) = ticks w + 1))
    ∧ (noQuit (w.pending ++ arrivals) →
        (Run_iteration CLOCKS_PER_SEC rnd cosf sinf w now arrivals).state.gameloop.running
            = w.state.gameloop.running
          ∧ noQuit (Run_iteration CLOCKS_PER_SEC rnd cosf sinf w now arrivals).pending) := by
  by_cases h : 1 ≤ rnd (w.state.gameloop.delta
      + rnd (((now - w.state.gameloop.last_time : Int) : F) / w.state.gameloop.ns))
  · obtain ⟨h1, h2, h3, h4, h5, h6⟩ :=
      Run_iteration_tick CLOCKS_PER_SEC rnd cosf sinf w now arrivals h
    refine ⟨h2, h3, Or.inr ⟨h, h1, h4⟩, fun hq => ⟨h6 hq, ?_⟩⟩
    rw [h5]
    simp [noQuit]
  · have h' := not_le.mp h
    rw [Run_iteration_idle CLOCKS_PER_SEC rnd cosf sinf w now arrivals h']
    exact ⟨rfl, rfl, Or.inl ⟨h', rfl, rfl⟩, fun hq => ⟨rfl, hq⟩⟩

/-- Running the loop over two lists of inputs in turn is running it over their
concatenation. -/
theorem Run_loop_append (CLOCKS_PER_SEC : Int) (rnd cosf sinf : F → F) (w : World F)
    (l1 l2 : List (Int × List SDL_Event)) :
    Run_loop CLOCKS_PER_SEC rnd cosf sinf w (l1 ++ l2)
      = Run_loop CLOCKS_PER_SEC rnd cosf sinf (Run_loop CLOCKS_PER_SEC rnd cosf sinf w l1) l2 := by
  induction l1 generalizing w with
  | nil => rfl
  | cons i rest ih =>
    simp only [List.cons_append, Run_loop]
    split_ifs with hr
    · exact ih _
    · cases l2 with
      | nil => rfl
      | cons j r2 => simp [Run_loop, hr]

/-- With a positive time per tick, non-negative elapsed times and a rounding
that keeps non-negative values non-negative, an accumulator that is
non-negative stays non-negative. -/
theorem Run_loop_acc_nonneg (CLOCKS_PER_SEC : Int) (rnd cosf sinf : F → F)
    (hlo : ∀ x : F, 0 ≤ x → 0 ≤ rnd x) (w : World F)
    (ins : List (Int × List SDL_Event)) (hns : 0 < w.state.gameloop.ns)
    (h0 : 0 ≤ accumulator w) (hd : ∀ i ∈ ins, 0 ≤ i.1) :
    0 ≤ accumulator (Run_loop CLOCKS_PER_SEC rnd cosf sinf w ins) := by
  induction ins generalizing w with
  | nil => exact h0
  | cons i rest ih =>
    simp only [Run_loop]
    split_ifs with hr
    · obtain ⟨e1, -, e3, -⟩ :=
        Run_iteration_step CLOCKS_PER_SEC rnd cosf sinf w (w.state.gameloop.last_time + i.1) i.2
      have hi : (0 : Int) ≤ i.1 := hd i (List.mem_cons_self _ _)
      have hq : (0 : F) ≤ ((w.state.gameloop.last_time + i.1 - w.state.gameloop.last_time : Int) : F)
          / w.state.gameloop.ns := by
        apply div_nonneg _ hns.le
        have : w.state.gameloop.last_time + i.1 - w.state.gameloop.last_time = i.1 := by ring
        rw [this]
        exact_mod_cast hi
      apply ih
      · rw [e1]; exact hns
      · rcases e3 with ⟨-, e, -⟩ | ⟨e0, e, -⟩
        · rw [e]
          exact hlo _ (add_nonneg h0 (hlo _ hq))
        · rw [e]
          exact hlo _ (by linarith)
      · intro j hj
        exact hd j (List.mem_cons_of_mem _ hj)
    · exact h0

/-- If no elapsed time exceeds the (positive) time per tick and the rounding
does not cross `1` or `2` from below, an accumulator that is at most `1` stays
at most `1`. -/
theorem Run_loop_acc_le_one (CLOCKS_PER_SEC : Int) (rnd cosf sinf : F → F)
    (h1 : ∀ x : F, x ≤ 1 → rnd x ≤ 1) (h2 : ∀ x : F, x ≤ 2 → rnd x ≤ 2) (w : World F)
    (ins : List (Int × List SDL_Event)) (hns : 0 < w.state.gameloop.ns)
    (ha : accumulator w ≤ 1) (hd : ∀ i ∈ ins, (i.1 : F) ≤ w.state.gameloop.ns) :
    accumulator (Run_loop CLOCKS_PER_SEC rnd cosf sinf w ins) ≤ 1 := by
  induction ins generalizing w with
  | nil => exact ha
  | cons i rest ih =>
    simp only [Run_loop]
    split_ifs with hr
    · obtain ⟨e1, -, e3, -⟩ :=
        Run_iteration_step CLOCKS_PER_SEC rnd cosf sinf w (w.state.gameloop.last_time + i.1) i.2
      have hi : (i.1 : F) ≤ w.state.gameloop.ns := hd i (List.mem_cons_self _ _)
      have hq : ((w.state.gameloop.last_time + i.1 - w.state.gameloop.last_time : Int) : F)
          / w.state.gameloop.ns ≤ 1 := by
        have : w.state.gameloop.last_time + i.1 - w.state.gameloop.last_time = i.1 := by ring
        rw [this, div_le_one hns]
        exact hi
      have hs : rnd (accumulator w
          + rnd (((w.state.gameloop.last_time + i.1 - w.state.gameloop.last_time : Int) : F)
            / w.state.gameloop.ns)) ≤ 2 := by
        apply h2
        have := h1 _ hq
        linarith
      apply ih
      · rw [e1]; exact hns
      · rcases e3 with ⟨e0, e, -⟩ | ⟨-, e, -⟩
        · rw [e]; exact e0.le
        · rw [e]
          exact h1 _ (by linarith)
      · intro j hj
        rw [e1]
        exact hd j (List.mem_cons_of_mem _ hj)
    · exact ha

/-- The pacer record after one iteration, in full: the report is made in the
branch of the tick, when the timer has reached `CLOCKS_PER_SEC`, with the frame
count that includes the tick just performed.  The flag `r` is the `running`
flag left by the event handling. -/
theorem Run_iteration_gameloop (CLOCKS_PER_SEC : Int) (rnd cosf sinf : F → F) (w : World F)
    (now : Int) (arrivals : List SDL_Event) :
    ∃ r : Nat, (noQuit (w.pending ++ arrivals) → r = w.state.gameloop.running)
    ∧ ((Run_iteration CLOCKS_PER_SEC rnd cosf sinf w now arrivals).state.gameloop
      = if 1 ≤ rnd (w.state.gameloop.delta
            + rnd (((now - w.state.gameloop.last_time : Int) : F) / w.state.gameloop.ns)) then
          if CLOCKS_PER_SEC ≤ w.state.gameloop.timer + (now - w.state.gameloop.last_time) then
            { w.state.gameloop with
              running := r
              last_time := now
              delta := rnd (rnd (w.state.gameloop.delta
                + rnd (((now - w.state.gameloop.last_time : Int) : F) / w.state.gameloop.ns)) - 1)
              time := w.state.gameloop.time + CLOCKS_PER_SEC
              delta_time := rnd (rnd (1 / ((w.state.gameloop.frames + 1 : Int) : F)) * 25)
              timer := 0
              frames := 0 }
          else
            { w.state.gameloop with
              running := r
              last_time := now
              delta := rnd (rnd (w.state.gameloop.delta
                + rnd (((now - w.state.gameloop.last_time : Int) : F) / w.state.gameloop.ns)) - 1)
              timer := w.state.gameloop.timer + (now - w.state.gameloop.last_time)
              frames := w.state.gameloop.frames + 1 }
        else
          { w.state.gameloop with
            last_time := now
            delta := rnd (w.state.gameloop.delta
              + rnd (((now - w.state.gameloop.last_time : Int) : F) / w.state.gameloop.ns))
            timer := w.state.gameloop.timer + (now - w.state.gameloop.last_time) })
    ∧ (Run_iteration CLOCKS_PER_SEC rnd cosf sinf w now arrivals).stdout
      = if 1 ≤ rnd (w.state.gameloop.delta
              + rnd (((now - w.state.gameloop.last_time : Int) : F) / w.state.gameloop.ns))
            ∧ CLOCKS_PER_SEC ≤ w.state.gameloop.timer + (now - w.state.gameloop.last_time) then
          w.stdout ++ [w.state.gameloop.frames + 1]
        else w.stdout := by
  by_cases h : 1 ≤ rnd (w.state.gameloop.delta
      + rnd (((now - w.state.gameloop.last_time : Int) : F) / w.state.gameloop.ns))
  · obtain ⟨-, -, h3, -, h5, h6⟩ := foldl_handleEvent_spec (w.pending ++ arrivals)
      ({ w with
          state :=
            { w.state with
              gameloop :=
                { w.state.gameloop with
                  delta := rnd (w.state.gameloop.delta
                    + rnd (((now - w.state.gameloop.last_time : Int) : F) / w.state.gameloop.ns))
                  timer := w.state.gameloop.timer + (now - w.state.gameloop.last_time)
                  last_time := now } }
          pending := w.pending ++ arrivals } : World F)
    refine ⟨_, h6, ?_⟩
    unfold Run_iteration
    simp only [h, if_true, Tick_snd, Render_snd, one_ne_zero, if_false, Tick_gameloop, pollEvents,
      true_and]
    rw [h5]
    by_cases hrep : CLOCKS_PER_SEC ≤ w.state.gameloop.timer + (now - w.state.gameloop.last_time)
    · simp only [hrep, if_true, h3]
      exact ⟨trivial, trivial⟩
    · simp only [hrep, if_false, h3]
      exact ⟨trivial, trivial⟩
  · have h' := not_le.mp h
    refine ⟨w.state.gameloop.running, fun _ => rfl, ?_⟩
    rw [Run_iteration_idle CLOCKS_PER_SEC rnd cosf sinf w now arrivals h']
    simp only [h, if_false, false_and]
    exact ⟨trivial, trivial⟩

/-- The start world is what `Init` builds from the 2x2 bitmap when `clock()`
returns `0` and `CLOCKS_PER_SEC` is `1000`. -/
theorem Init_eq_startWorld :
    Init 1000 0 (some rgbwSurface) = some (startWorld : World F) := by
  simp [Init, CreatePlane, startWorld, scenarioPlane, rgbw, rgbwSurface, List.range_succ,
    List.flatMap]

/-- The truncated quotients of `InitGameLoop` for `CLOCKS_PER_SEC = 1000` and
`72` frames per second. -/
theorem startWorld_gameloop :
    (startWorld : World F).state.gameloop
      = { running := 1, last_time := 0, time := 0, timer := 0, frames_per_second := 72,
          ns := 13, delta := 0, delta_time := 0, frames := 0 } := by
  have e1 : Int.tdiv 1000 72 = 13 := by decide
  have e2 : Int.tdiv 1 72 = 0 := by decide
  simp [startWorld, InitGameLoop, e1, e2]

/-- From the start, `n` iterations (`n` at most `76`) that each find `13` clock
units elapsed perform one tick each without any report, whenever the rounding
leaves `0` and `1` alone. -/
theorem Run_loop_steady (rnd cosf sinf : F → F) (h0 : rnd 0 = 0) (h1 : rnd 1 = 1) (n : Nat)
    (hn : n ≤ 76) :
    (Run_loop 1000 rnd cosf sinf (startWorld : World F)
        (List.replicate n (13, []))).state.gameloop
        = { running := 1, last_time := 13 * (n : Int), time := 0, timer := 13 * (n : Int),
            frames_per_second := 72, ns := 13, delta := 0, delta_time := 0, frames := (n : Int) }
    ∧ (Run_loop 1000 rnd cosf sinf (startWorld : World F) (List.replicate n (13, []))).pending
        = []
    ∧ (Run_loop 1000 rnd cosf sinf (startWorld : World F) (List.replicate n (13, []))).stdout
        = [] := by
  induction n with
  | zero =>
    refine ⟨?_, rfl, rfl⟩
    simp only [List.replicate_zero, Run_loop, startWorld_gameloop]
    simp
  | succ k ih =>
    obtain ⟨g, hp, ho⟩ := ih (by omega)
    rw [List.replicate_succ', Run_loop_append]
    generalize Run_loop 1000 rnd cosf sinf (startWorld : World F) (List.replicate k (13, [])) = wk
      at g hp ho
    have hrun : wk.state.gameloop.running ≠ 0 := by rw [g]; simp
    have hs : rnd (wk.state.gameloop.delta
        + rnd (((wk.state.gameloop.last_time + 13 - wk.state.gameloop.last_time : Int) : F)
          / wk.state.gameloop.ns)) = 1 := by
      rw [g]
      norm_num [h1]
    have ha : (1 : F) ≤ rnd (wk.state.gameloop.delta
        + rnd (((wk.state.gameloop.last_time + 13 - wk.state.gameloop.last_time : Int) : F)
          / wk.state.gameloop.ns)) := by
      rw [hs]
    have ht : ¬ (1000 : Int) ≤ wk.state.gameloop.timer
        + (wk.state.gameloop.last_time + 13 - wk.state.gameloop.last_time) := by
      rw [g]; simp only; omega
    obtain ⟨r, er, e1, e2⟩ :=
      Run_iteration_gameloop 1000 rnd cosf sinf wk (wk.state.gameloop.last_time + 13) []
    obtain ⟨-, -, -, -, e5, -⟩ :=
      Run_iteration_tick 1000 rnd cosf sinf wk (wk.state.gameloop.last_time + 13) [] ha
    simp only [Run_loop, hrun, ne_eq, not_false_eq_true, if_true]
    rw [if_pos ha, if_neg ht, hs] at e1
    rw [if_neg (fun hh => ht hh.2)] at e2
    refine ⟨?_, e5, by rw [e2, ho]⟩
    rw [e1, er (by rw [hp]; simp [noQuit]), g]
    simp only [gameloop_t.mk.injEq, true_and]
    refine ⟨by push_cast; ring, by push_cast; ring, by norm_num [h0], by push_cast; ring⟩

/-- With a zero time delta `Tick` leaves the camera where it is. -/
theorem Tick_camera_of_delta_time_zero (cosf sinf : F → F) (keydown : Nat → Nat)
    (state : state_t F) (h : state.gameloop.delta_time = 0) :
    (Tick cosf sinf keydown state).1.camera = state.camera := by
  unfold Tick
  simp only [h, mul_zero, zero_mul, add_zero, sub_zero]
  split_ifs <;> rfl

/-- With a zero time delta an iteration leaves the camera where it is. -/
theorem Run_iteration_camera (CLOCKS_PER_SEC : Int) (rnd cosf sinf : F → F) (w : World F)
    (now : Int) (arrivals : List SDL_Event) (h : w.state.gameloop.delta_time = 0) :
    (Run_iteration CLOCKS_PER_SEC rnd cosf sinf w now arrivals).state.camera = w.state.camera := by
  by_cases ha : 1 ≤ rnd (w.state.gameloop.delta
      + rnd (((now - w.state.gameloop.last_time : Int) : F) / w.state.gameloop.ns))
  · obtain ⟨h1, -, -, -, h5, -⟩ := foldl_handleEvent_spec (w.pending ++ arrivals)
      ({ w with
          state :=
            { w.state with
              gameloop :=
                { w.state.gameloop with
                  delta := rnd (w.state.gameloop.delta
                    + rnd (((now - w.state.gameloop.last_time : Int) : F) / w.state.gameloop.ns))
                  timer := w.state.gameloop.timer + (now - w.state.gameloop.last_time)
                  last_time := now } }
          pending := w.pending ++ arrivals } : World F)
    have hz : ∀ k : Nat → Nat,
        (Tick cosf sinf k (List.foldl handleEvent
          ({ w with
              state :=
                { w.state with
                  gameloop :=
                    { w.state.gameloop with
                      delta := rnd (w.state.gameloop.delta
                        + rnd (((now - w.state.gameloop.last_time : Int) : F)
                          / w.state.gameloop.ns))
                      timer := w.state.gameloop.timer + (now - w.state.gameloop.last_time)
                      last_time := now } }
              pending := w.pending ++ arrivals } : World F) (w.pending ++ arrivals)).state).1.camera
          = w.state.camera := by
      intro k
      rw [Tick_camera_of_delta_time_zero, h1]
      rw [h5]
      exact h
    unfold Run_iteration
    simp only [ha, if_true, Tick_snd, Render_snd, one_ne_zero, if_false, pollEvents]
    split_ifs
    · exact hz _
    · exact hz _
  · rw [Run_iteration_idle CLOCKS_PER_SEC rnd cosf sinf w now arrivals (not_le.mp ha)]

/-- The output of the loop only grows. -/
theorem Run_loop_stdout (CLOCKS_PER_SEC : Int) (rnd cosf sinf : F → F) (w : World F)
    (ins : List (Int × List SDL_Event)) :
    ∃ l, (Run_loop CLOCKS_PER_SEC rnd cosf sinf w ins).stdout = w.stdout ++ l := by
  induction ins generalizing w with
  | nil => exact ⟨[], by simp [Run_loop]⟩
  | cons i rest ih =>
    simp only [Run_loop]
    split_ifs with hr
    · obtain ⟨l, hl⟩ := ih (Run_iteration CLOCKS_PER_SEC rnd cosf sinf w
        (w.state.gameloop.last_time + i.1) i.2)
      obtain ⟨r, -, -, e2⟩ := Run_iteration_gameloop CLOCKS_PER_SEC rnd cosf sinf w
        (w.state.gameloop.last_time + i.1) i.2
      rw [hl, e2]
      split_ifs
      · exact ⟨_, List.append_assoc _ _ _⟩
      · exact ⟨l, rfl⟩
    · exact ⟨[], by simp⟩

/-- While the time delta is zero and nothing has been printed, the camera
does not move and the time delta stays zero. -/
theorem Run_loop_camera (CLOCKS_PER_SEC : Int) (rnd cosf sinf : F → F) (w : World F)
    (ins : List (Int × List SDL_Event)) (h : w.state.gameloop.delta_time = 0)
    (hs : (Run_loop CLOCKS_PER_SEC rnd cosf sinf w ins).stdout = w.stdout) :
    (Run_loop CLOCKS_PER_SEC rnd cosf sinf w ins).state.camera = w.state.camera
    ∧ (Run_loop CLOCKS_PER_SEC rnd cosf sinf w ins).state.gameloop.delta_time = 0 := by
  induction ins generalizing w with
  | nil => exact ⟨rfl, h⟩
  | cons i rest ih =>
    simp only [Run_loop] at hs ⊢
    split_ifs at hs ⊢ with hr
    · obtain ⟨l, hl⟩ := Run_loop_stdout CLOCKS_PER_SEC rnd cosf sinf
        (Run_iteration CLOCKS_PER_SEC rnd cosf sinf w (w.state.gameloop.last_time + i.1) i.2) rest
      obtain ⟨r, -, e1, e2⟩ := Run_iteration_gameloop CLOCKS_PER_SEC rnd cosf sinf w
        (w.state.gameloop.last_time + i.1) i.2
      have hc := Run_iteration_camera CLOCKS_PER_SEC rnd cosf sinf w
        (w.state.gameloop.last_time + i.1) i.2 h
      by_cases hrep : 1 ≤ rnd (w.state.gameloop.delta
            + rnd (((w.state.gameloop.last_time + i.1 - w.state.gameloop.last_time : Int) : F)
              / w.state.gameloop.ns))
          ∧ CLOCKS_PER_SEC ≤ w.state.gameloop.timer
              + (w.state.gameloop.last_time + i.1 - w.state.gameloop.last_time)
      · rw [if_pos hrep] at e2
        rw [hl, e2, List.append_assoc] at hs
        have := List.append_cancel_left (hs.trans (List.append_nil _).symm)
        simp at this
      · rw [if_neg hrep] at e2
        have hdt : (Run_iteration CLOCKS_PER_SEC rnd cosf sinf w
            (w.state.gameloop.last_time + i.1) i.2).state.gameloop.delta_time = 0 := by
          rw [e1]
          split_ifs with h1 h2
          · exact absurd ⟨h1, h2⟩ hrep
          · exact h
          · exact h
        have := ih _ hdt (by rw [hs, e2])
        rw [hc] at this
        exact this
    · exact ⟨rfl, h⟩

/-- While the time delta is zero, the iteration that follows a run without
report leaves the camera where it started, whether or not it makes a report:
its tick comes before its report. -/
theorem Run_loop_camera_snoc (CLOCKS_PER_SEC : Int) (rnd cosf sinf : F → F) (w : World F)
    (ins : List (Int × List SDL_Event)) (i : Int × List SDL_Event)
    (h : w.state.gameloop.delta_time = 0)
    (hs : (Run_loop CLOCKS_PER_SEC rnd cosf sinf w ins).stdout = w.stdout) :
    (Run_loop CLOCKS_PER_SEC rnd cosf sinf w (ins ++ [i])).state.camera = w.state.camera := by
  obtain ⟨c1, c2⟩ := Run_loop_camera CLOCKS_PER_SEC rnd cosf sinf w ins h hs
  rw [Run_loop_append]
  simp only [Run_loop]
  split_ifs with hr
  · rw [Run_iteration_camera CLOCKS_PER_SEC rnd cosf sinf _ _ _ c2, c1]
  · exact c1

/-- The start world is running at `13` units per tick with accumulator `0`
and no tick performed. -/
theorem startWorld_paced : paced (startWorld : World F) 0 0 := by
  have g := startWorld_gameloop (F := F)
  refine ⟨by rw [g]; simp, by simp [noQuit, startWorld], by rw [g], by rw [accumulator, g], ?_⟩
  simp [ticks, startWorld]

/-- One traced iteration without events: with `q` the rounded quotient and `s`
the rounded sum, either `s` is below `1` and becomes the accumulator, or a tick
is performed and the accumulator becomes `s - 1`, rounded. -/
theorem Run_loop_paced_cons (CLOCKS_PER_SEC : Int) (rnd cosf sinf : F → F) (w : World F)
    (d : Int) (rest : List (Int × List SDL_Event)) (a q s : F) (t : Nat) (hP : paced w a t)
    (hq : rnd ((d : F) / 13) = q) (hs : rnd (a + q) = s) :
    (s < 1 → ∃ w' : World F, paced w' s t
        ∧ Run_loop CLOCKS_PER_SEC rnd cosf sinf w ((d, []) :: rest)
          = Run_loop CLOCKS_PER_SEC rnd cosf sinf w' rest)
    ∧ (1 ≤ s → ∃ w' : World F, paced w' (rnd (s - 1)) (t + 1)
        ∧ Run_loop CLOCKS_PER_SEC rnd cosf sinf w ((d, []) :: rest)
          = Run_loop CLOCKS_PER_SEC rnd cosf sinf w' rest) := by
  obtain ⟨hrun, hq0, hns, hacc, ht⟩ := hP
  obtain ⟨e1, -, e3, e4⟩ :=
    Run_iteration_step CLOCKS_PER_SEC rnd cosf sinf w (w.state.gameloop.last_time + d) []
  have hd : w.state.gameloop.last_time + d - w.state.gameloop.last_time = d := by ring
  rw [hd, hns, hq, hacc, hs] at e3
  obtain ⟨r1, r2⟩ := e4 (by simpa using hq0)
  have hstep : Run_loop CLOCKS_PER_SEC rnd cosf sinf w ((d, []) :: rest)
      = Run_loop CLOCKS_PER_SEC rnd cosf sinf
          (Run_iteration CLOCKS_PER_SEC rnd cosf sinf w (w.state.gameloop.last_time + d) [])
          rest := by
    simp only [Run_loop, hrun, ne_eq, not_false_eq_true, if_true]
  constructor
  · intro hlt
    rcases e3 with ⟨-, ea, et⟩ | ⟨ge, -, -⟩
    · exact ⟨_, ⟨by rw [r1]; exact hrun, r2, by rw [e1, hns], ea, by rw [et, ht]⟩, hstep⟩
    · exact absurd hlt (not_lt.mpr ge)
  · intro hge
    rcases e3 with ⟨lt, -, -⟩ | ⟨-, ea, et⟩
    · exact absurd hge (not_le.mpr lt)
    · exact ⟨_, ⟨by rw [r1]; exact hrun, r2, by rw [e1, hns], ea, by rw [et, ht]⟩, hstep⟩

end Pacer

/-! ### C1: the colour resolution and the bounds of the texture buffer -/

/-- C1 (defect in the code): the resolution does not keep every read inside the
texture.  For the 2x2 texture (a buffer of 4 colours) seen with heading `0` and
field of view `1.57`, row `299`, column `400`: from the camera position
`(1, 1)` the coordinate is `(tx, ty) = (2, 2)`, the test `tx > tex_width ||
ty > tex_height` lets it through and index `2 * 2 + 2 = 6` is read, past the
buffer; from `(1, 1/4)` the coordinate is `(2, 0)` and index `2` is read, which
is column `0` of row `1` (blue), a texel of another row. -/
theorem resolve_reads_outside_texture :
    (scenarioPlane 1 : plane_t ℝ).raw_tex.length = 4
    ∧ RenderPlane.tx Real.cos (scenarioPlane 1) 1 0 (157 / 100) 299 400 = 2
    ∧ RenderPlane.ty Real.sin (scenarioPlane 1) 1 0 (157 / 100) 299 400 = 2
    ∧ RenderPlane.resolve (scenarioPlane 1 : plane_t ℝ) 2 2 = Lookup.texel 6
    ∧ RenderPlane.rgb Real.cos Real.sin (scenarioPlane 1) 1 1 0 (157 / 100) 299 400 = none
    ∧ RenderPlane.ty Real.sin (scenarioPlane 1) (1 / 4) 0 (157 / 100) 299 400 = 0
    ∧ RenderPlane.resolve (scenarioPlane 1 : plane_t ℝ) 2 0 = Lookup.texel (1 * 2 + 0)
    ∧ RenderPlane.rgb Real.cos Real.sin (scenarioPlane 1) 1 (1 / 4) 0 (157 / 100) 299 400
        = some ⟨0, 0, 255⟩ := by
  have hy1 : RenderPlane.ty Real.sin (scenarioPlane 1) 1 0 (157 / 100) 299 400 = 2 := by
    rw [scenario_ty]
    have h := c_int_cast_eq_of_mem (F := ℝ) (n := 2) (v := 1 * 2) (by norm_num) (by norm_num)
    simpa using h
  have hy2 : RenderPlane.ty Real.sin (scenarioPlane 1) (1 / 4) 0 (157 / 100) 299 400 = 0 := by
    rw [scenario_ty]
    have h := c_int_cast_eq_of_mem (F := ℝ) (n := 0) (v := 1 / 4 * 2) (by norm_num) (by norm_num)
    simpa using h
  refine ⟨by simp [scenarioPlane, rgbw], scenario_tx_at_one 1, hy1, ?_, ?_, hy2, ?_, ?_⟩
  · simp [RenderPlane.resolve, scenarioPlane]
  · rw [RenderPlane.rgb, scenario_tx_at_one, hy1]
    simp [RenderPlane.resolve, RenderPlane.fetch, scenarioPlane, rgbw]
  · simp [RenderPlane.resolve, scenarioPlane]
  · rw [RenderPlane.rgb, scenario_tx_at_one, hy2]
    simp [RenderPlane.resolve, RenderPlane.fetch, scenarioPlane, rgbw]

/-! ### C2: the texture coordinate of a sample point -/

/-- C2 (as stated, refuted): for the sample point `(-1/4, 1/4)` and the 2x2
texture the computed column is `0`, whereas `floor(-1/4 * 2) = -1`; the point
has a negative coordinate and still resolves to a texel (index `0`), not to
black. -/
theorem texcoord_is_not_floor :
    RenderPlane.texCol (scenarioPlane 1 : plane_t ℚ) (-1 / 4) = 0
    ∧ ⌊(-1 / 4 : ℚ) * (((scenarioPlane 1 : plane_t ℚ).tex_width : Int) : ℚ)⌋ = -1
    ∧ RenderPlane.resolve (scenarioPlane 1 : plane_t ℚ)
        (RenderPlane.texCol (scenarioPlane 1 : plane_t ℚ) (-1 / 4))
        (RenderPlane.texRow (scenarioPlane 1 : plane_t ℚ) (1 / 4)) = Lookup.texel 0 := by
  have hc : RenderPlane.texCol (scenarioPlane 1 : plane_t ℚ) (-1 / 4) = 0 := by
    rw [RenderPlane.texCol, c_int_cast_of_neg (by simp only [scenarioPlane]; norm_num)]
    rw [Int.ceil_eq_iff]
    simp only [scenarioPlane]
    norm_num
  have hr : RenderPlane.texRow (scenarioPlane 1 : plane_t ℚ) (1 / 4) = 0 := by
    rw [RenderPlane.texRow, c_int_cast_of_nonneg (by simp only [scenarioPlane]; norm_num)]
    rw [Int.floor_eq_iff]
    simp only [scenarioPlane]
    norm_num
  refine ⟨hc, ?_, ?_⟩
  · rw [Int.floor_eq_iff]
    simp only [scenarioPlane]
    norm_num
  · rw [hc, hr]
    simp [RenderPlane.resolve, scenarioPlane]

/-- C2 (amended): the texture coordinate is the product rounded toward zero,
that is its floor when the product is non-negative and its ceiling when it is
negative; it is negative exactly when the product is at most `-1`; and a
coordinate pair is resolved to black exactly when one of the products is at
most `-1` or a coordinate exceeds the texture size. -/
theorem texcoord_rounds_toward_zero {F : Type} [LinearOrderedField F] [FloorRing F]
    (plane : plane_t F) (sx sy : F) :
    (RenderPlane.texCol plane sx
        = if 0 ≤ sx * (plane.tex_width : F) then ⌊sx * (plane.tex_width : F)⌋
          else ⌈sx * (plane.tex_width : F)⌉)
    ∧ (RenderPlane.texRow plane sy
        = if 0 ≤ sy * (plane.tex_height : F) then ⌊sy * (plane.tex_height : F)⌋
          else ⌈sy * (plane.tex_height : F)⌉)
    ∧ (RenderPlane.texCol plane sx < 0 ↔ sx * (plane.tex_width : F) ≤ -1)
    ∧ (RenderPlane.texRow plane sy < 0 ↔ sy * (plane.tex_height : F) ≤ -1)
    ∧ (RenderPlane.resolve plane (RenderPlane.texCol plane sx) (RenderPlane.texRow plane sy)
          = Lookup.black
        ↔ (sx * (plane.tex_width : F) ≤ -1 ∨ sy * (plane.tex_height : F) ≤ -1
            ∨ RenderPlane.texCol plane sx > plane.tex_width
            ∨ RenderPlane.texRow plane sy > plane.tex_height)) := by
  refine ⟨?_, ?_, c_int_cast_neg_iff _, c_int_cast_neg_iff _, ?_⟩
  · unfold RenderPlane.texCol
    split_ifs with h
    · exact c_int_cast_of_nonneg h
    · exact c_int_cast_of_neg (not_le.mp h)
  · unfold RenderPlane.texRow
    split_ifs with h
    · exact c_int_cast_of_nonneg h
    · exact c_int_cast_of_neg (not_le.mp h)
  · have hx := c_int_cast_neg_iff (sx * (plane.tex_width : F))
    have hy := c_int_cast_neg_iff (sy * (plane.tex_height : F))
    unfold RenderPlane.resolve
    rw [← hx, ← hy]
    unfold RenderPlane.texCol RenderPlane.texRow
    split_ifs with h1 h2
    · simp only [true_iff]
      tauto
    · simp only [true_iff]
      tauto
    · simp only [false_iff]
      tauto

/-! ### C3: the screen row of a projected row -/

/-- C3 (defect in the code): with the documented encoding (`1 = ceiling`,
`2 = floor`) the ceiling is not mirrored.  The conditional
`plane.orientation ? ... : ...` only tests the flag against zero, so for every
row `y` both documented values give `dy = y + 300`; at `y = 1` a plane tagged
ceiling (`1`) is drawn on row `301`, not on row `600 - (1 + 300) = 299`. -/
theorem dy_ignores_documented_orientation :
    (∀ y : Int, RenderPlane.dy (scenarioPlane 1 : plane_t ℚ) y = y + 300
        ∧ RenderPlane.dy (scenarioPlane 2 : plane_t ℚ) y = y + 300)
    ∧ RenderPlane.dy (scenarioPlane 1 : plane_t ℚ) 1 = 301
    ∧ RenderPlane.dy (scenarioPlane 2 : plane_t ℚ) 1 = 301
    ∧ SCR_H - (1 + SCR_H / 2) = 299 := by
  refine ⟨fun y => ⟨?_, ?_⟩, ?_, ?_, ?_⟩ <;>
    simp [RenderPlane.dy, scenarioPlane, SCR_H]

/-! ### C8: the end-to-end scenario -/

/-- C8 (as stated, refuted): in the scenario the pixel of row `299`, column
`400` does not resolve to texel `(1, 1)`, nor to white. -/
theorem scenario_pixel_is_not_white :
    ¬ (RenderPlane.tx Real.cos (scenarioPlane 1) 0 0 (157 / 100) 299 400 = 1
        ∧ RenderPlane.ty Real.sin (scenarioPlane 1) 0 0 (157 / 100) 299 400 = 1)
    ∧ RenderPlane.rgb Real.cos Real.sin (scenarioPlane 1) 0 0 0 (157 / 100) 299 400
        ≠ some ⟨255, 255, 255⟩ := by
  have hy : RenderPlane.ty Real.sin (scenarioPlane 1) 0 0 (157 / 100) 299 400 = 0 := by
    rw [scenario_ty]
    simp [c_int_cast]
  constructor
  · rw [scenario_tx_at_zero]
    simp
  · rw [RenderPlane.rgb, scenario_tx_at_zero, hy]
    simp [RenderPlane.resolve, RenderPlane.fetch, scenarioPlane, rgbw]

/-- C8 (amended): in the scenario (near `0.001`, far `0.06`, 2x2 texture
`[red, green, blue, white]`, camera at `(0, 0)` with heading `0`, field of view
`1.57`, screen 800x600), for either orientation, the pixel of row `299`
(sample depth `299/300`), column `400` has its sample point on the camera axis,
at `y = 0` and `0 < x < 1/2`; it resolves to texel `(0, 0)` and to red. -/
theorem scenario_pixel_is_red (o : Nat) :
    (RenderPlane.sample_depth 299 : ℝ) = 299 / 300
    ∧ RenderPlane.sample_y Real.sin (scenarioPlane o) 0 0 (157 / 100) 299 400 = 0
    ∧ 0 < RenderPlane.sample_x Real.cos (scenarioPlane o) 0 0 (157 / 100) 299 400
    ∧ RenderPlane.sample_x Real.cos (scenarioPlane o) 0 0 (157 / 100) 299 400 < 1 / 2
    ∧ RenderPlane.tx Real.cos (scenarioPlane o) 0 0 (157 / 100) 299 400 = 0
    ∧ RenderPlane.ty Real.sin (scenarioPlane o) 0 0 (157 / 100) 299 400 = 0
    ∧ RenderPlane.rgb Real.cos Real.sin (scenarioPlane o) 0 0 0 (157 / 100) 299 400
        = some ⟨255, 0, 0⟩ := by
  obtain ⟨hpos, hle⟩ := cos_half_fov
  have hy : RenderPlane.ty Real.sin (scenarioPlane o) 0 0 (157 / 100) 299 400 = 0 := by
    rw [scenario_ty]
    simp [c_int_cast]
  refine ⟨?_, scenario_sample_y o 0, ?_, ?_, scenario_tx_at_zero o, hy, ?_⟩
  · simp only [RenderPlane.sample_depth, SCR_H]
    norm_num
  · rw [scenario_sample_x]
    nlinarith
  · rw [scenario_sample_x]
    nlinarith
  · rw [RenderPlane.rgb, scenario_tx_at_zero, hy]
    simp [RenderPlane.resolve, RenderPlane.fetch, scenarioPlane, rgbw]

/-! ### C5: the range of the accumulator -/

/-- C5 (as stated, refuted): from the start (accumulator `0`, `13` clock units
per tick), one iteration that finds `39` units elapsed performs a single tick
and leaves the accumulator at `2`, which is not below `1`.  And with elapsed
times `2`, `13`, `11`, `13`, none above the time per tick, the binary64 sums
round up and the accumulator is left at exactly `1`. -/
theorem accumulator_backlog_after_long_iteration :
    accumulator (startWorld : World ℝ) = 0
    ∧ accumulator (Run_loop 1000 binary64 Real.cos Real.sin (startWorld : World ℝ) [(39, [])])
        = 2
    ∧ ¬ accumulator (Run_loop 1000 binary64 Real.cos Real.sin (startWorld : World ℝ)
          [(39, [])]) < 1
    ∧ accumulator (Run_loop 1000 binary64 Real.cos Real.sin (startWorld : World ℝ)
          [(2, []), (13, []), (11, []), (13, [])]) = 1 := by
  have g := startWorld_gameloop (F := ℝ)
  have b1 : binary64 (1 : ℝ) = 1 := binary64_one
  have b2 : binary64 (2 : ℝ) = 2 := by simpa using binary64_natCast (F := ℝ) 2 (by norm_num)
  have b3 : binary64 (3 : ℝ) = 3 := by simpa using binary64_natCast (F := ℝ) 3 (by norm_num)
  have P0 : paced (startWorld : World ℝ) 0 0 := startWorld_paced
  have long : accumulator (Run_loop 1000 binary64 Real.cos Real.sin (startWorld : World ℝ)
      [(39, [])]) = 2 := by
    obtain ⟨w1, P1, e1⟩ := (Run_loop_paced_cons 1000 binary64 Real.cos Real.sin startWorld 39 []
      0 3 3 0 P0 (by norm_num [b3]) (by norm_num [b3])).2 (by norm_num)
    rw [e1]
    obtain ⟨-, -, -, ha, -⟩ := P1
    simp only [Run_loop]
    rw [ha]
    norm_num [b2]
  refine ⟨by rw [accumulator, g], long, by rw [long]; norm_num, ?_⟩
  have q13 : binary64 (((13 : Int) : ℝ) / 13) = 1 := by norm_num [b1]
  obtain ⟨w1, P1, e1⟩ := (Run_loop_paced_cons 1000 binary64 Real.cos Real.sin startWorld 2
    [(13, []), (11, []), (13, [])] _ _ _ _ P0
    (by rw [Int.cast_ofNat]; exact binary64_two_thirteenths) binary64_r2_1).1 (by norm_num)
  rw [e1]
  obtain ⟨w2, P2, e2⟩ := (Run_loop_paced_cons 1000 binary64 Real.cos Real.sin w1 13
    [(11, []), (13, [])] _ _ _ _ P1 q13 binary64_r2_2).2 (by norm_num)
  rw [e2, binary64_r2_3] at *
  obtain ⟨w3, P3, e3⟩ := (Run_loop_paced_cons 1000 binary64 Real.cos Real.sin w2 11
    [(13, [])] _ _ _ _ P2
    (by rw [Int.cast_ofNat]; exact binary64_eleven_thirteenths) binary64_r2_4).1 (by norm_num)
  rw [e3]
  obtain ⟨w4, P4, e4⟩ := (Run_loop_paced_cons 1000 binary64 Real.cos Real.sin w3 13
    [] _ _ _ _ P3 q13 binary64_r2_5).2 (by norm_num)
  rw [e4]
  obtain ⟨-, -, -, ha, -⟩ := P4
  simp only [Run_loop]
  rw [ha]
  norm_num [b1]

/-- C5 (amended): in binary64, with a positive time per tick, starting from
accumulator `0` and for every sequence of non-negative elapsed times (and any
events), after every iteration the accumulator is at least `0`; it is also at
most `1` after every iteration when no elapsed time exceeds the time per
tick. -/
theorem accumulator_invariant {F : Type} [LinearOrderedField F] [FloorRing F]
    (CLOCKS_PER_SEC : Int) (cosf sinf : F → F) (w : World F)
    (ins : List (Int × List SDL_Event)) (hns : 0 < w.state.gameloop.ns)
    (h0 : accumulator w = 0) (hd : ∀ i ∈ ins, 0 ≤ i.1) :
    0 ≤ accumulator (Run_loop CLOCKS_PER_SEC binary64 cosf sinf w ins)
    ∧ ((∀ i ∈ ins, (i.1 : F) ≤ w.state.gameloop.ns) →
        accumulator (Run_loop CLOCKS_PER_SEC binary64 cosf sinf w ins) ≤ 1) := by
  refine ⟨Run_loop_acc_nonneg CLOCKS_PER_SEC binary64 cosf sinf binary64_nonneg w ins hns
    (by rw [h0]) hd, fun hle => ?_⟩
  refine Run_loop_acc_le_one CLOCKS_PER_SEC binary64 cosf sinf ?_ ?_ w ins hns
    (by rw [h0]; exact zero_le_one) hle
  · intro x hx
    simpa using binary64_le_natCast x 1 (by norm_num) (by simpa using hx)
  · intro x hx
    simpa using binary64_le_natCast x 2 (by norm_num) (by simpa using hx)

/-- C5 (amended), at the start world with elapsed times `13`, `5`, `13`. -/
theorem accumulator_invariant_witness :
    0 ≤ accumulator
        (Run_loop 1000 binary64 Real.cos Real.sin (startWorld : World ℝ)
          [(13, []), (5, []), (13, [])])
    ∧ accumulator
        (Run_loop 1000 binary64 Real.cos Real.sin (startWorld : World ℝ)
          [(13, []), (5, []), (13, [])])
      ≤ 1 := by
  have g := startWorld_gameloop (F := ℝ)
  have h := accumulator_invariant 1000 Real.cos Real.sin (startWorld : World ℝ)
    [(13, []), (5, []), (13, [])] (by rw [g]; norm_num) (by rw [accumulator, g])
    (by intro i hi; simp at hi; rcases hi with rfl | rfl | rfl <;> norm_num)
  refine ⟨h.1, h.2 ?_⟩
  intro i hi
  rw [g]
  simp at hi
  rcases hi with rfl | rfl | rfl <;> norm_num

/-! ### C6: the one-second report -/

/-- C6 (as stated, refuted): after `76` iterations of `13` clock units each (one
tick each, timer `988`), an iteration that finds `12` units elapsed brings the
timer to `1000 = CLOCKS_PER_SEC` while the accumulator is the `double` nearest
to `12/13`, below `1`; no report is made: the timer stays at `1000`, the frame
counter at `76`, the time delta at its initial `0`, and nothing is printed. -/
theorem report_skipped_without_tick :
    (1000 : Int) ≤
        (Run_loop 1000 binary64 Real.cos Real.sin (startWorld : World ℝ)
            (List.replicate 76 (13, []))).state.gameloop.timer + 12
    ∧ (Run_loop 1000 binary64 Real.cos Real.sin (startWorld : World ℝ)
          (List.replicate 76 (13, []) ++ [(12, [])])).state.gameloop.timer = 1000
    ∧ (Run_loop 1000 binary64 Real.cos Real.sin (startWorld : World ℝ)
          (List.replicate 76 (13, []) ++ [(12, [])])).state.gameloop.frames = 76
    ∧ (Run_loop 1000 binary64 Real.cos Real.sin (startWorld : World ℝ)
          (List.replicate 76 (13, []) ++ [(12, [])])).state.gameloop.delta_time = 0
    ∧ (Run_loop 1000 binary64 Real.cos Real.sin (startWorld : World ℝ)
          (List.replicate 76 (13, []) ++ [(12, [])])).stdout = [] := by
  obtain ⟨g, hp, ho⟩ := Run_loop_steady (F := ℝ) binary64 Real.cos Real.sin binary64_zero
    binary64_one 76 (le_refl _)
  rw [Run_loop_append]
  generalize Run_loop 1000 binary64 Real.cos Real.sin (startWorld : World ℝ)
    (List.replicate 76 (13, [])) = wk at g hp ho
  have hrun : wk.state.gameloop.running ≠ 0 := by rw [g]; simp
  have hd : wk.state.gameloop.last_time + 12 - wk.state.gameloop.last_time = 12 := by ring
  have hs : binary64 (wk.state.gameloop.delta
      + binary64 (((wk.state.gameloop.last_time + 12 - wk.state.gameloop.last_time : Int) : ℝ)
        / wk.state.gameloop.ns)) = 4157168886803535 / 2 ^ 52 := by
    rw [hd, g]
    simp only [Int.cast_ofNat]
    rw [binary64_twelve_thirteenths, binary64_twelve_thirteenths_fixed]
  have ha : binary64 (wk.state.gameloop.delta
      + binary64 (((wk.state.gameloop.last_time + 12 - wk.state.gameloop.last_time : Int) : ℝ)
        / wk.state.gameloop.ns)) < 1 := by
    rw [hs]; norm_num
  simp only [Run_loop, hrun, ne_eq, not_false_eq_true, if_true]
  rw [Run_iteration_idle 1000 binary64 Real.cos Real.sin wk _ [] ha]
  simp only [g, ho]
  norm_num

/-- C6 (amended): in an iteration in which, after the elapsed time has been
added, the timer has reached `CLOCKS_PER_SEC`: if the accumulator has reached
`1` (a tick is performed) the report is made, it prints the frame count
including this tick, sets the time delta to `(1 / that count) * 25` (each of
the two operations rounded to a `double`) and resets the timer and the frame
counter to `0`; if the accumulator is below `1` no report is made and timer,
frame counter, time delta and output are kept.  This holds for every rounding
of the `double` operations. -/
theorem report_only_with_tick {F : Type} [LinearOrderedField F] [FloorRing F]
    (CLOCKS_PER_SEC : Int) (rnd cosf sinf : F → F) (w : World F) (now : Int)
    (arrivals : List SDL_Event)
    (ht : CLOCKS_PER_SEC ≤ w.state.gameloop.timer + (now - w.state.gameloop.last_time)) :
    (1 ≤ rnd (w.state.gameloop.delta
          + rnd (((now - w.state.gameloop.last_time : Int) : F) / w.state.gameloop.ns)) →
      (Run_iteration CLOCKS_PER_SEC rnd cosf sinf w now arrivals).state.gameloop.delta_time
          = rnd (rnd (1 / ((w.state.gameloop.frames + 1 : Int) : F)) * 25)
        ∧ (Run_iteration CLOCKS_PER_SEC rnd cosf sinf w now arrivals).state.gameloop.timer = 0
        ∧ (Run_iteration CLOCKS_PER_SEC rnd cosf sinf w now arrivals).state.gameloop.frames = 0
        ∧ (Run_iteration CLOCKS_PER_SEC rnd cosf sinf w now arrivals).stdout
            = w.stdout ++ [w.state.gameloop.frames + 1])
    ∧ (rnd (w.state.gameloop.delta
          + rnd (((now - w.state.gameloop.last_time : Int) : F) / w.state.gameloop.ns)) < 1 →
      (Run_iteration CLOCKS_PER_SEC rnd cosf sinf w now arrivals).state.gameloop.delta_time
          = w.state.gameloop.delta_time
        ∧ (Run_iteration CLOCKS_PER_SEC rnd cosf sinf w now arrivals).state.gameloop.timer
            = w.state.gameloop.timer + (now - w.state.gameloop.last_time)
        ∧ (Run_iteration CLOCKS_PER_SEC rnd cosf sinf w now arrivals).state.gameloop.frames
            = w.state.gameloop.frames
        ∧ (Run_iteration CLOCKS_PER_SEC rnd cosf sinf w now arrivals).stdout = w.stdout) := by
  obtain ⟨r, -, e1, e2⟩ := Run_iteration_gameloop CLOCKS_PER_SEC rnd cosf sinf w now arrivals
  constructor
  · intro ha
    rw [if_pos ha, if_pos ht] at e1
    rw [if_pos ⟨ha, ht⟩] at e2
    rw [e1, e2]
    exact ⟨rfl, rfl, rfl, rfl⟩
  · intro ha
    rw [if_neg (not_le.mpr ha)] at e1
    rw [if_neg (fun hh => not_le.mpr ha hh.1)] at e2
    rw [e1, e2]
    exact ⟨rfl, rfl, rfl, rfl⟩

/-- C6 (amended), in binary64 at the start world when the first iteration finds
`1001` clock units elapsed (`77` times the time per tick): the tick is
performed and the report prints `1` and sets the time delta to `(1 / 1) * 25`. -/
theorem report_only_with_tick_witness :
    (Run_iteration 1000 binary64 Real.cos Real.sin (startWorld : World ℝ) 1001
        []).state.gameloop.delta_time = 25
    ∧ (Run_iteration 1000 binary64 Real.cos Real.sin (startWorld : World ℝ) 1001
        []).state.gameloop.timer = 0
    ∧ (Run_iteration 1000 binary64 Real.cos Real.sin (startWorld : World ℝ) 1001 []).stdout
        = [1] := by
  have g := startWorld_gameloop (F := ℝ)
  have b1 : binary64 (1 : ℝ) = 1 := binary64_one
  have b25 : binary64 (25 : ℝ) = 25 := by
    simpa using binary64_natCast (F := ℝ) 25 (by norm_num)
  have b77 : binary64 (77 : ℝ) = 77 := by
    simpa using binary64_natCast (F := ℝ) 77 (by norm_num)
  have h := (report_only_with_tick 1000 binary64 Real.cos Real.sin (startWorld : World ℝ) 1001 []
    (by rw [g]; norm_num)).1 (by rw [g]; norm_num [b77])
  obtain ⟨h1, h2, -, h4⟩ := h
  refine ⟨?_, h2, ?_⟩
  · rw [h1, g]; norm_num [b1, b25]
  · rw [h4, g]; simp [startWorld]

/-! ### C7: the effect of a tick -/

/-- C7: for every state, time delta and `keydown` table, `Tick` moves the
camera by `(fwd - back) * (cos a, sin a) * dt * 0.01` with the heading `a` from
before the tick, turns it by `(right - left) * dt * 0.1`, returns `1`, and
leaves the pacer record and the floor as they were.  In particular forward
alone moves by `(cos a, sin a) * dt * 0.01`, right alone turns by `dt * 0.1`,
and with no key held the state is unchanged. -/
theorem Tick_postcondition {F : Type} [LinearOrderedField F] [FloorRing F]
    (cosf sinf : F → F) (keydown : Nat → Nat) (state : state_t F) :
    (Tick cosf sinf keydown state).1.camera.x
        = state.camera.x
          + (held keydown SDL_SCANCODE_W - held keydown SDL_SCANCODE_S)
            * cosf state.camera.a * state.gameloop.delta_time * (1 / 100)
    ∧ (Tick cosf sinf keydown state).1.camera.y
        = state.camera.y
          + (held keydown SDL_SCANCODE_W - held keydown SDL_SCANCODE_S)
            * sinf state.camera.a * state.gameloop.delta_time * (1 / 100)
    ∧ (Tick cosf sinf keydown state).1.camera.a
        = state.camera.a
          + (held keydown SDL_SCANCODE_D - held keydown SDL_SCANCODE_A)
            * state.gameloop.delta_time * (1 / 10)
    ∧ (Tick cosf sinf keydown state).2 = 1
    ∧ (Tick cosf sinf keydown state).1.gameloop = state.gameloop
    ∧ (Tick cosf sinf keydown state).1.floor = state.floor
    ∧ (keydown SDL_SCANCODE_W ≠ 0 → keydown SDL_SCANCODE_S = 0 →
        (Tick cosf sinf keydown state).1.camera.x
            = state.camera.x + cosf state.camera.a * state.gameloop.delta_time * (1 / 100)
          ∧ (Tick cosf sinf keydown state).1.camera.y
            = state.camera.y + sinf state.camera.a * state.gameloop.delta_time * (1 / 100))
    ∧ (keydown SDL_SCANCODE_D ≠ 0 → keydown SDL_SCANCODE_A = 0 →
        (Tick cosf sinf keydown state).1.camera.a
          = state.camera.a + state.gameloop.delta_time * (1 / 10))
    ∧ (keydown SDL_SCANCODE_W = 0 → keydown SDL_SCANCODE_S = 0 → keydown SDL_SCANCODE_D = 0 →
        keydown SDL_SCANCODE_A = 0 → (Tick cosf sinf keydown state).1 = state) := by
  refine ⟨?_, ?_, ?_, rfl, rfl, rfl, ?_, ?_, ?_⟩
  · unfold Tick held
    by_cases hw : keydown SDL_SCANCODE_W = 0 <;> by_cases hs : keydown SDL_SCANCODE_S = 0 <;>
      by_cases hd : keydown SDL_SCANCODE_D = 0 <;> by_cases ha : keydown SDL_SCANCODE_A = 0 <;>
      simp [hw, hs, hd, ha] <;> ring
  · unfold Tick held
    by_cases hw : keydown SDL_SCANCODE_W = 0 <;> by_cases hs : keydown SDL_SCANCODE_S = 0 <;>
      by_cases hd : keydown SDL_SCANCODE_D = 0 <;> by_cases ha : keydown SDL_SCANCODE_A = 0 <;>
      simp [hw, hs, hd, ha] <;> ring
  · unfold Tick held
    by_cases hw : keydown SDL_SCANCODE_W = 0 <;> by_cases hs : keydown SDL_SCANCODE_S = 0 <;>
      by_cases hd : keydown SDL_SCANCODE_D = 0 <;> by_cases ha : keydown SDL_SCANCODE_A = 0 <;>
      simp [hw, hs, hd, ha] <;> ring
  · intro hw hs
    unfold Tick
    by_cases hd : keydown SDL_SCANCODE_D = 0 <;> by_cases ha : keydown SDL_SCANCODE_A = 0 <;>
      simp [hw, hs, hd, ha]
  · intro hd ha
    unfold Tick
    by_cases hw : keydown SDL_SCANCODE_W = 0 <;> by_cases hs : keydown SDL_SCANCODE_S = 0 <;>
      simp [hw, hs, hd, ha]
  · intro hw hs hd ha
    unfold Tick
    simp [hw, hs, hd, ha]

/-- C7, at the start camera `(0, 0, 0.1)` with time delta `25` and W held:
the camera moves to `(cos 0.1, sin 0.1) * 25 * 0.01`. -/
theorem Tick_postcondition_witness :
    (Tick Real.cos Real.sin (fun sc => if sc = SDL_SCANCODE_W then 1 else 0)
        { (startWorld : World ℝ).state with
          gameloop := { (startWorld : World ℝ).state.gameloop with delta_time := 25 } }).1.camera.x
      = 0 + Real.cos (1 / 10) * 25 * (1 / 100)
    ∧ (Tick Real.cos Real.sin (fun sc => if sc = SDL_SCANCODE_W then 1 else 0)
        { (startWorld : World ℝ).state with
          gameloop := { (startWorld : World ℝ).state.gameloop with delta_time := 25 } }).1.camera.y
      = 0 + Real.sin (1 / 10) * 25 * (1 / 100) :=
  (Tick_postcondition Real.cos Real.sin (fun sc => if sc = SDL_SCANCODE_W then 1 else 0)
    { (startWorld : World ℝ).state with
      gameloop := { (startWorld : World ℝ).state.gameloop with delta_time := 25 } }).2.2.2.2.2.2.1
    (by simp) (by simp [SDL_SCANCODE_W, SDL_SCANCODE_S])

/-! ### C10: the initial time delta -/

/-- C10: for every target rate `fps` of at least `2`, `InitGameLoop` sets the
time delta to `0` (the integer quotient `1 / fps`) and the time per tick to the
truncated integer quotient `CLOCKS_PER_SEC / fps`; and from a world whose pacer
record is the one `InitGameLoop` writes, whatever the rounding, the camera,
the keys held, the elapsed times and the events: after a run `ins` in which
nothing has been printed the camera is where it started and the time delta is
still `0`, and the camera is still where it started after the next iteration
`i`, even when that iteration makes the first report (its tick precedes the
report). -/
theorem InitGameLoop_delta_time_zero {F : Type} [LinearOrderedField F] [FloorRing F]
    (CLOCKS_PER_SEC fps clock : Int) (hfps : 2 ≤ fps) :
    (InitGameLoop CLOCKS_PER_SEC fps clock : gameloop_t F).delta_time = 0
    ∧ (InitGameLoop CLOCKS_PER_SEC fps clock : gameloop_t F).ns
        = ((Int.tdiv CLOCKS_PER_SEC fps : Int) : F)
    ∧ ∀ (rnd cosf sinf : F → F) (w : World F) (ins : List (Int × List SDL_Event))
        (i : Int × List SDL_Event),
        w.state.gameloop = InitGameLoop CLOCKS_PER_SEC fps clock →
        (Run_loop CLOCKS_PER_SEC rnd cosf sinf w ins).stdout = w.stdout →
        (Run_loop CLOCKS_PER_SEC rnd cosf sinf w ins).state.camera = w.state.camera
          ∧ (Run_loop CLOCKS_PER_SEC rnd cosf sinf w ins).state.gameloop.delta_time = 0
          ∧ (Run_loop CLOCKS_PER_SEC rnd cosf sinf w (ins ++ [i])).state.camera
              = w.state.camera := by
  have hz : (InitGameLoop CLOCKS_PER_SEC fps clock : gameloop_t F).delta_time = 0 := by
    simp only [InitGameLoop]
    rw [Int.tdiv_eq_zero_of_lt (by norm_num) (by omega)]
    simp
  refine ⟨hz, rfl, ?_⟩
  intro rnd cosf sinf w ins i hw hs
  have hw0 : w.state.gameloop.delta_time = 0 := by rw [hw]; exact hz
  obtain ⟨c1, c2⟩ := Run_loop_camera CLOCKS_PER_SEC rnd cosf sinf w ins hw0 hs
  exact ⟨c1, c2, Run_loop_camera_snoc CLOCKS_PER_SEC rnd cosf sinf w ins i hw0 hs⟩

/-- C10, for the program's rate `72` with `CLOCKS_PER_SEC = 1000`, in binary64:
the time delta starts at `0`, the time per tick at `13`; the first iteration,
with W and D held, performs a tick without report; the second one finds `1001`
more clock units elapsed, performs a tick and then makes the first report
(it prints `2`), and the camera is still at its start after it. -/
theorem InitGameLoop_delta_time_zero_witness :
    (InitGameLoop 1000 72 0 : gameloop_t ℝ).delta_time = 0
    ∧ (InitGameLoop 1000 72 0 : gameloop_t ℝ).ns = 13
    ∧ ticks (Run_loop 1000 binary64 Real.cos Real.sin (startWorld : World ℝ)
          [(13, [SDL_Event.keydown SDL_SCANCODE_W, SDL_Event.keydown SDL_SCANCODE_D])]) = 1
    ∧ (Run_loop 1000 binary64 Real.cos Real.sin (startWorld : World ℝ)
          ([(13, [SDL_Event.keydown SDL_SCANCODE_W, SDL_Event.keydown SDL_SCANCODE_D])]
            ++ [(1001, [])])).stdout = [2]
    ∧ (Run_loop 1000 binary64 Real.cos Real.sin (startWorld : World ℝ)
          ([(13, [SDL_Event.keydown SDL_SCANCODE_W, SDL_Event.keydown SDL_SCANCODE_D])]
            ++ [(1001, [])])).state.camera
        = (startWorld : World ℝ).state.camera := by
  have h := InitGameLoop_delta_time_zero (F := ℝ) 1000 72 0 (by norm_num)
  have e1 : Int.tdiv 1000 72 = 13 := by decide
  have g := startWorld_gameloop (F := ℝ)
  have b0 : binary64 (0 : ℝ) = 0 := binary64_zero
  have b1 : binary64 (1 : ℝ) = 1 := binary64_one
  have b77 : binary64 (77 : ℝ) = 77 := by
    simpa using binary64_natCast (F := ℝ) 77 (by norm_num)
  have hrun : (startWorld : World ℝ).state.gameloop.running ≠ 0 := by rw [g]; simp
  have hlast : (startWorld : World ℝ).state.gameloop.last_time + 13 = 13 := by rw [g]; norm_num
  have hs : binary64 ((startWorld : World ℝ).state.gameloop.delta
      + binary64 ((((13 : Int) - (startWorld : World ℝ).state.gameloop.last_time : Int) : ℝ)
        / (startWorld : World ℝ).state.gameloop.ns)) = 1 := by
    rw [g]; norm_num [b1]
  have ha : (1 : ℝ) ≤ binary64 ((startWorld : World ℝ).state.gameloop.delta
      + binary64 ((((13 : Int) - (startWorld : World ℝ).state.gameloop.last_time : Int) : ℝ)
        / (startWorld : World ℝ).state.gameloop.ns)) := by
    rw [hs]
  have ht : ¬ (1000 : Int) ≤ (startWorld : World ℝ).state.gameloop.timer
      + (13 - (startWorld : World ℝ).state.gameloop.last_time) := by
    rw [g]; norm_num
  obtain ⟨-, -, -, e4, e5, -⟩ := Run_iteration_tick 1000 binary64 Real.cos Real.sin
    (startWorld : World ℝ) 13
    [SDL_Event.keydown SDL_SCANCODE_W, SDL_Event.keydown SDL_SCANCODE_D] ha
  obtain ⟨r, hr, f1, f2⟩ := Run_iteration_gameloop 1000 binary64 Real.cos Real.sin
    (startWorld : World ℝ) 13
    [SDL_Event.keydown SDL_SCANCODE_W, SDL_Event.keydown SDL_SCANCODE_D]
  rw [if_pos ha, if_neg ht, hs, hr (by simp [noQuit, startWorld]), g] at f1
  rw [if_neg (fun hh => ht hh.2)] at f2
  have hfirst : Run_loop 1000 binary64 Real.cos Real.sin (startWorld : World ℝ)
      [(13, [SDL_Event.keydown SDL_SCANCODE_W, SDL_Event.keydown SDL_SCANCODE_D])]
      = Run_iteration 1000 binary64 Real.cos Real.sin (startWorld : World ℝ) 13
          [SDL_Event.keydown SDL_SCANCODE_W, SDL_Event.keydown SDL_SCANCODE_D] := by
    simp only [Run_loop, hrun, ne_eq, not_false_eq_true, if_true, hlast]
  refine ⟨h.1, by rw [h.2.1, e1]; norm_num, ?_, ?_, ?_⟩
  · rw [hfirst, ticks, e4]
    rfl
  · rw [Run_loop_append, hfirst]
    generalize Run_iteration 1000 binary64 Real.cos Real.sin (startWorld : World ℝ) 13
      [SDL_Event.keydown SDL_SCANCODE_W, SDL_Event.keydown SDL_SCANCODE_D] = w1 at e5 f1 f2
    have hrun1 : w1.state.gameloop.running ≠ 0 := by rw [f1]; simp
    obtain ⟨r2, -, -, k2⟩ := Run_iteration_gameloop 1000 binary64 Real.cos Real.sin w1
      (w1.state.gameloop.last_time + 1001) []
    simp only [Run_loop, hrun1, ne_eq, not_false_eq_true, if_true]
    rw [k2, if_pos, f2, f1]
    · simp [startWorld]
    · rw [f1]
      norm_num [b0, b77]
  · refine (h.2.2 binary64 Real.cos Real.sin startWorld _ _ rfl ?_).2.2
    rw [hfirst, f2]

/-! ### C9: reciprocal-depth convergence -/

/-- The reciprocal-depth factor `1 / sample_depth - 1` is positive on the
iterated rows and decreases strictly from row to row. -/
theorem depth_factor_lt (y y' : Int) (h1 : 1 ≤ y) (h2 : y < y') (h3 : y' ≤ SCR_H / 2 - 1) :
    0 < 1 / (RenderPlane.sample_depth y' : ℝ) - 1
    ∧ 1 / (RenderPlane.sample_depth y' : ℝ) - 1 < 1 / (RenderPlane.sample_depth y : ℝ) - 1 := by
  have h3' : y' ≤ 299 := by simpa [SCR_H] using h3
  have hy : (1 : ℝ) ≤ (y : ℝ) := by exact_mod_cast h1
  have hyy : (y : ℝ) < (y' : ℝ) := by exact_mod_cast h2
  have hy' : (y' : ℝ) ≤ 299 := by exact_mod_cast h3'
  have p1 : (0 : ℝ) < y := by linarith
  have p2 : (0 : ℝ) < y' := by linarith
  simp only [RenderPlane.sample_depth, SCR_H]
  push_cast
  have e1 : 1 / ((y' : ℝ) / (600 / 2)) - 1 = (300 - y') / y' := by field_simp; ring
  have e2 : 1 / ((y : ℝ) / (600 / 2)) - 1 = (300 - y) / y := by field_simp; ring
  rw [e1, e2]
  constructor
  · apply div_pos <;> linarith
  · rw [div_lt_div_iff₀ p2 p1]
    nlinarith

/-- For a unit direction `(c, s)`, the squared distance between the point
interpolated at depth `d` and the far point is
`((far - near) * (1 / d - 1)) ^ 2`. -/
theorem reciprocal_distSq (c s cx cy near far d : ℝ) (hcs : c ^ 2 + s ^ 2 = 1) (hd : d ≠ 0) :
    distSq ((cx + c * far - (cx + c * near)) / d + (cx + c * near))
        ((cy + s * far - (cy + s * near)) / d + (cy + s * near)) (cx + c * far) (cy + s * far)
      = ((far - near) * (1 / d - 1)) ^ 2 := by
  have ex : (cx + c * far - (cx + c * near)) / d + (cx + c * near) - (cx + c * far)
      = c * ((far - near) * (1 / d - 1)) := by
    field_simp
    ring
  have ey : (cy + s * far - (cy + s * near)) / d + (cy + s * near) - (cy + s * far)
      = s * ((far - near) * (1 / d - 1)) := by
    field_simp
    ring
  rw [distSq, ex, ey]
  have : (c * ((far - near) * (1 / d - 1))) ^ 2 + (s * ((far - near) * (1 / d - 1))) ^ 2
      = (c ^ 2 + s ^ 2) * ((far - near) * (1 / d - 1)) ^ 2 := by ring
  rw [this, hcs, one_mul]

/-- The sample depth of an iterated row is not zero. -/
theorem sample_depth_ne_zero (y : Int) (h1 : 1 ≤ y) : (RenderPlane.sample_depth y : ℝ) ≠ 0 := by
  have hy : (1 : ℝ) ≤ (y : ℝ) := by exact_mod_cast h1
  simp only [RenderPlane.sample_depth, SCR_H]
  push_cast
  have : (0 : ℝ) < (y : ℝ) / (600 / 2) := by apply div_pos <;> linarith
  exact ne_of_gt this

/-- The squared distance of the start point from the left far point, row `y`. -/
theorem startDistSq_eq (plane : plane_t ℝ) (cx cy ca fov : ℝ) (y : Int) (h1 : 1 ≤ y) :
    startDistSq Real.cos Real.sin plane cx cy ca fov y
      = ((plane.local_far - plane.local_near) * (1 / (RenderPlane.sample_depth y : ℝ) - 1)) ^ 2 := by
  simp only [startDistSq, RenderPlane.start_x, RenderPlane.start_y, RenderPlane.far_1_x,
    RenderPlane.far_1_y, RenderPlane.near_1_x, RenderPlane.near_1_y]
  exact reciprocal_distSq _ _ cx cy _ _ _ (Real.cos_sq_add_sin_sq _) (sample_depth_ne_zero y h1)

/-- The squared distance of the end point from the right far point, row `y`. -/
theorem endDistSq_eq (plane : plane_t ℝ) (cx cy ca fov : ℝ) (y : Int) (h1 : 1 ≤ y) :
    endDistSq Real.cos Real.sin plane cx cy ca fov y
      = ((plane.local_far - plane.local_near) * (1 / (RenderPlane.sample_depth y : ℝ) - 1)) ^ 2 := by
  simp only [endDistSq, RenderPlane.end_x, RenderPlane.end_y, RenderPlane.far_2_x,
    RenderPlane.far_2_y, RenderPlane.near_2_x, RenderPlane.near_2_y]
  exact reciprocal_distSq _ _ cx cy _ _ _ (Real.cos_sq_add_sin_sq _) (sample_depth_ne_zero y h1)

/-- C9: in exact real arithmetic, for every plane and camera pose, the scanline
end points computed at sample depth `1` are exactly the far points; and when the
far distance differs from the near distance, for iterated rows
`1 <= y < y' <= SCR_H / 2 - 1` the distance of the start point from the left far
point, and of the end point from the right far point, is strictly smaller on row
`y'` than on row `y` (so the last iterated row, `SCR_H / 2 - 1`, is the closest). -/
theorem reciprocal_depth_convergence (plane : plane_t ℝ) (cx cy ca fov : ℝ) :
    (RenderPlane.start_x Real.cos plane cx ca fov 1 = RenderPlane.far_1_x Real.cos plane cx ca fov
      ∧ RenderPlane.start_y Real.sin plane cy ca fov 1 = RenderPlane.far_1_y Real.sin plane cy ca fov
      ∧ RenderPlane.end_x Real.cos plane cx ca fov 1 = RenderPlane.far_2_x Real.cos plane cx ca fov
      ∧ RenderPlane.end_y Real.sin plane cy ca fov 1 = RenderPlane.far_2_y Real.sin plane cy ca fov)
    ∧ (plane.local_far ≠ plane.local_near →
        ∀ y y' : Int, 1 ≤ y → y < y' → y' ≤ SCR_H / 2 - 1 →
          Real.sqrt (startDistSq Real.cos Real.sin plane cx cy ca fov y')
              < Real.sqrt (startDistSq Real.cos Real.sin plane cx cy ca fov y)
          ∧ Real.sqrt (endDistSq Real.cos Real.sin plane cx cy ca fov y')
              < Real.sqrt (endDistSq Real.cos Real.sin plane cx cy ca fov y)) := by
  constructor
  · simp only [RenderPlane.start_x, RenderPlane.start_y, RenderPlane.end_x, RenderPlane.end_y,
      div_one, sub_add_cancel, and_self]
  · intro hne y y' h1 h2 h3
    obtain ⟨f1, f2⟩ := depth_factor_lt y y' h1 h2 h3
    have hk : 0 < (plane.local_far - plane.local_near) ^ 2 := by
      have : plane.local_far - plane.local_near ≠ 0 := sub_ne_zero.mpr hne
      positivity
    have hsq : ((plane.local_far - plane.local_near) * (1 / (RenderPlane.sample_depth y' : ℝ) - 1)) ^ 2
        < ((plane.local_far - plane.local_near) * (1 / (RenderPlane.sample_depth y : ℝ) - 1)) ^ 2 := by
      rw [mul_pow, mul_pow]
      apply mul_lt_mul_of_pos_left _ hk
      nlinarith
    rw [startDistSq_eq plane cx cy ca fov y h1, startDistSq_eq plane cx cy ca fov y' (by omega),
      endDistSq_eq plane cx cy ca fov y h1, endDistSq_eq plane cx cy ca fov y' (by omega)]
    exact ⟨Real.sqrt_lt_sqrt (sq_nonneg _) hsq, Real.sqrt_lt_sqrt (sq_nonneg _) hsq⟩

/-- C9, for the scenario plane at the start camera: the start point of row `299`
is closer to the left far point than that of row `1`. -/
theorem reciprocal_depth_convergence_witness :
    Real.sqrt (startDistSq Real.cos Real.sin (scenarioPlane 1) 0 0 (1 / 10) (157 / 100) 299)
      < Real.sqrt (startDistSq Real.cos Real.sin (scenarioPlane 1) 0 0 (1 / 10) (157 / 100) 1) :=
  ((reciprocal_depth_convergence (scenarioPlane 1) 0 0 (1 / 10) (157 / 100)).2
    (by simp only [scenarioPlane]; norm_num) 1 299 (by norm_num) (by norm_num)
    (by simp only [SCR_H]; norm_num)).1

/-! ### C4: accumulator conservation -/

end HuddleUp
